import Mathlib

/-!
Verification of the retail EDA script (analyze_retail.py).

The script loads a transaction table, derives calendar columns from the
InvoiceDate column, and runs a fixed sequence of analysis steps:
sales trends (groupby Month, sum TotalAmount), customer behavior
(value counts and per-customer spending), revenue drivers (per-product
revenue and an 80/20 concentration metric), and a correlation matrix
over the numeric columns.

The embedding below models a pandas DataFrame as an ordered association
of column names to typed column data.  Numeric cells are rationals,
identifier cells are optional strings (none standing for a missing value,
NaN), and parsed timestamps are optional integer day counts since the
Unix epoch, none standing for NaT, the value an unparseable (empty)
InvoiceDate cell parses to.  A calendar field read from a missing
timestamp is itself missing, so the calendar columns derived from a
timestamp column containing NaT are numeric columns with missing entries
(float columns carrying NaN); with every timestamp present they are plain
integer columns.  Grouping, sorting, cumulative sums and the correlation
formula are translated directly from the corresponding pandas operations
used in the source: groupby sorts keys ascending and drops rows whose key
is missing; value counts exclude missing values; sort by value uses a
comparison sort, modelled by insertion sort (tie order among equal values
is unspecified in the source).
-/

namespace RetailEDA

/-- Column payloads of the in-memory table: a numeric column with no
missing entry (an integer dtype, or a float column without NaN), a
numeric column whose entries may be missing (a float dtype carrying
NaN), an object (string) column whose entries may be missing, or a
parsed timestamp column stored as days since 1970-01-01 where a missing
entry stands for NaT, the result of parsing an empty cell. -/
inductive ColData where
  | num (vs : List ℚ)
  | numOpt (vs : List (Option ℚ))
  | str (vs : List (Option String))
  | dates (vs : List (Option Int))
deriving DecidableEq

/-- A data frame: ordered association of column names to column data. -/
abbrev DF := List (String × ColData)

/-- Column names of a data frame, in order. -/
def DF.columns (df : DF) : List String := df.map (·.1)

/-- Values of a numeric column, when the column exists and is numeric. -/
def DF.getNum (df : DF) (c : String) : Option (List ℚ) :=
  match df.find? (fun p => decide (p.1 = c)) with
  | some (_, ColData.num vs) => some vs
  | _ => none

/-- Values of a numeric column together with its missing entries, when
the column exists and is numeric of either dtype: a column guard such as
the membership test of the sales step accepts a month column whether or
not missing timestamps turned it into a float column. -/
def DF.getNumNa (df : DF) (c : String) : Option (List (Option ℚ)) :=
  match df.find? (fun p => decide (p.1 = c)) with
  | some (_, ColData.num vs) => some (vs.map some)
  | some (_, ColData.numOpt vs) => some vs
  | _ => none

/-- Values of an object column, when the column exists and holds strings. -/
def DF.getStr (df : DF) (c : String) : Option (List (Option String)) :=
  match df.find? (fun p => decide (p.1 = c)) with
  | some (_, ColData.str vs) => some vs
  | _ => none

/-- Values of a timestamp column, when the column exists and is parsed;
a missing entry is NaT. -/
def DF.getDates (df : DF) (c : String) : Option (List (Option Int)) :=
  match df.find? (fun p => decide (p.1 = c)) with
  | some (_, ColData.dates vs) => some vs
  | _ => none

/-- Sum of the values attached to a given group key: the aggregate that
a groupby-sum produces for that key. -/
def keyedSum {κ : Type} [DecidableEq κ] (rows : List (κ × ℚ)) (k : κ) : ℚ :=
  ((rows.filter (fun r => decide (r.1 = k))).map (·.2)).sum

/-- Summing the per-key aggregates over any duplicate-free list of keys
covering all rows gives back the total of the value column. -/
theorem sum_keyedSum {κ : Type} [DecidableEq κ] (rows : List (κ × ℚ)) (ks : List κ)
    (hnd : ks.Nodup) (hmem : ∀ r ∈ rows, r.1 ∈ ks) :
    (ks.map (keyedSum rows)).sum = (rows.map (·.2)).sum := by
  induction ks generalizing rows with
  | nil =>
    have hrows : rows = [] := by
      cases rows with
      | nil => rfl
      | cons r rs => exact absurd (hmem r (by simp)) (by simp)
    subst hrows; simp
  | cons k ks ih =>
    have hk : k ∉ ks := (List.nodup_cons.mp hnd).1
    have hnd' : ks.Nodup := (List.nodup_cons.mp hnd).2
    set rows₂ := rows.filter (fun r => !decide (r.1 = k)) with hrows₂
    have hsplit : keyedSum rows k + ((rows₂.map (·.2)).sum) = (rows.map (·.2)).sum := by
      have hp := List.filter_append_perm (fun r => decide (r.1 = k)) rows
      have := (hp.map (fun r : κ × ℚ => r.2)).sum_eq
      simpa [keyedSum] using this
    have hmem₂ : ∀ r ∈ rows₂, r.1 ∈ ks := by
      intro r hr
      have hr' := List.mem_filter.mp hr
      have h1 : r.1 ∈ k :: ks := hmem r hr'.1
      have h2 : ¬ (r.1 = k) := by simpa using hr'.2
      rcases List.mem_cons.mp h1 with h | h
      · exact absurd h h2
      · exact h
    have hcongr : ∀ k' ∈ ks, keyedSum rows k' = keyedSum rows₂ k' := by
      intro k' hk'
      have hne : k' ≠ k := fun h => hk (h ▸ hk')
      unfold keyedSum
      rw [hrows₂, List.filter_filter]
      have hfeq : rows.filter (fun r => decide (r.1 = k'))
          = rows.filter (fun a => decide (a.1 = k') && !decide (a.1 = k)) := by
        apply List.filter_congr
        intro r _
        by_cases h : r.1 = k'
        · simp [h, hne]
        · simp [h]
      rw [hfeq]
    calc ((k :: ks).map (keyedSum rows)).sum
        = keyedSum rows k + (ks.map (keyedSum rows)).sum := by simp
      _ = keyedSum rows k + (ks.map (keyedSum rows₂)).sum := by
          rw [List.map_congr_left hcongr]
      _ = keyedSum rows k + (rows₂.map (·.2)).sum := by rw [ih rows₂ hnd' hmem₂]
      _ = (rows.map (·.2)).sum := hsplit

/-- Keyed rows with a missing key removed, keeping the value: a groupby
on a column with missing entries silently drops those rows. -/
def dropNullKeys {κ : Type} (rows : List (Option κ × ℚ)) : List (κ × ℚ) :=
  rows.filterMap (fun r => match r.1 with
    | some k => some (k, r.2)
    | none => none)

/-- Ascending sort of the group keys: pandas groupby emits its groups with
keys sorted ascending, and the source additionally applies sort_index. -/
def sortAsc (l : List ℚ) : List ℚ := l.insertionSort (· ≤ ·)

/-- Monthly sales series of the sales trend step: group the (month, amount)
rows by month, sum the amounts of each group, keys ascending. -/
def monthly_sales (rows : List (ℚ × ℚ)) : List (ℚ × ℚ) :=
  (sortAsc (rows.map (·.1)).dedup).map (fun m => (m, keyedSum rows m))

theorem monthly_sales_snd_sum (rows : List (ℚ × ℚ)) :
    ((monthly_sales rows).map (·.2)).sum = (rows.map (·.2)).sum := by
  unfold monthly_sales
  rw [List.map_map]
  have hperm : List.Perm (sortAsc (rows.map (·.1)).dedup) (rows.map (·.1)).dedup :=
    List.perm_insertionSort _ _
  have hnd : (sortAsc (rows.map (·.1)).dedup).Nodup :=
    hperm.nodup_iff.mpr (List.nodup_dedup _)
  have hmem : ∀ r ∈ rows, r.1 ∈ sortAsc (rows.map (·.1)).dedup := by
    intro r hr
    exact hperm.mem_iff.mpr (List.mem_dedup.mpr (List.mem_map_of_mem _ hr))
  have := sum_keyedSum rows (sortAsc (rows.map (·.1)).dedup) hnd hmem
  simpa [Function.comp] using this

theorem dropNullKeys_map_snd_of_all {κ : Type} (months : List (Option κ))
    (amounts : List ℚ) (hlen : months.length = amounts.length)
    (h : ∀ m ∈ months, m ≠ none) :
    (dropNullKeys (months.zip amounts)).map (·.2) = amounts := by
  induction months generalizing amounts with
  | nil =>
    cases amounts with
    | nil => rfl
    | cons a as => cases hlen
  | cons m ms ih =>
    cases amounts with
    | nil => cases hlen
    | cons a as =>
      cases m with
      | none => exact absurd rfl (h none (List.mem_cons_self _ _))
      | some k =>
        have hlen' : ms.length = as.length := by simpa using hlen
        have h' : ∀ m' ∈ ms, m' ≠ none :=
          fun m' hm' => h m' (List.mem_cons_of_mem _ hm')
        show ((k, a) :: dropNullKeys (ms.zip as)).map (·.2) = a :: as
        rw [List.map_cons, ih as hlen' h']

/-- C1 (corrected): the per-month aggregates of the sales trend analysis
sum to the monetary total over the rows whose month key is present, and
in particular equal the total of the full monetary column whenever every
row has a present month key; a row whose timestamp failed to parse (NaT)
has a missing month key and is silently dropped by the groupby, so with
such rows present the aggregates undercount the column total. -/
theorem c1_monthly_aggregates_sum_to_total (months : List (Option ℚ))
    (amounts : List ℚ) (hlen : months.length = amounts.length) :
    ((monthly_sales (dropNullKeys (months.zip amounts))).map (·.2)).sum
      = ((dropNullKeys (months.zip amounts)).map (·.2)).sum
    ∧ ((∀ m ∈ months, m ≠ none) →
      ((monthly_sales (dropNullKeys (months.zip amounts))).map (·.2)).sum
        = amounts.sum) := by
  refine ⟨monthly_sales_snd_sum _, fun h => ?_⟩
  rw [monthly_sales_snd_sum, dropNullKeys_map_snd_of_all months amounts hlen h]

theorem c1_monthly_aggregates_sum_to_total_witness :
    ([some (1 : ℚ), some 1, some 2].length = [(10 : ℚ), 20, 5].length)
    ∧ (∀ m ∈ [some (1 : ℚ), some 1, some 2], m ≠ none)
    ∧ ((monthly_sales (dropNullKeys
          ([some (1 : ℚ), some 1, some 2].zip [(10 : ℚ), 20, 5]))).map (·.2)).sum
        = ([(10 : ℚ), 20, 5] : List ℚ).sum :=
  ⟨by decide, by decide,
    (c1_monthly_aggregates_sum_to_total [some 1, some 1, some 2] [10, 20, 5]
      (by decide)).2 (by decide)⟩

theorem monthly_sales_key_sorted (rows : List (ℚ × ℚ)) :
    (monthly_sales rows).Pairwise (fun p q => p.1 < q.1) := by
  unfold monthly_sales
  rw [List.pairwise_map]
  have hsorted : (sortAsc (rows.map (·.1)).dedup).Sorted (· ≤ ·) :=
    List.sorted_insertionSort _ _
  have hnd : (sortAsc (rows.map (·.1)).dedup).Nodup :=
    (List.perm_insertionSort _ _).nodup_iff.mpr (List.nodup_dedup _)
  exact (List.Pairwise.and hsorted hnd).imp (fun h => lt_of_le_of_ne h.1 h.2)

/-- Outcome of one analysis step: skipped when a required column is
missing, failed when the underlying library raises, ok otherwise. -/
inductive StepResult (α : Type) where
  | skipped : StepResult α
  | failed (msg : String) : StepResult α
  | ok (out : α) : StepResult α
deriving DecidableEq

/-- Report payload of the sales trend step: the monthly series and the
rows reported as best and worst month. -/
structure SalesOut where
  series : List (ℚ × ℚ)
  best : ℚ × ℚ
  worst : ℚ × ℚ
deriving DecidableEq

/-- Step of a running maximum: replace the accumulator only on a strictly
larger value, so that the first occurrence of the maximum is kept, the
behavior of idxmax. -/
def pickMax (acc q : ℚ × ℚ) : ℚ × ℚ := if acc.2 < q.2 then q else acc

/-- Row of the first maximal value of a series (idxmax), none when empty. -/
def idxmax : List (ℚ × ℚ) → Option (ℚ × ℚ)
  | [] => none
  | p :: ps => some (ps.foldl pickMax p)

/-- Step of a running minimum keeping the first occurrence (idxmin). -/
def pickMin (acc q : ℚ × ℚ) : ℚ × ℚ := if q.2 < acc.2 then q else acc

/-- Row of the first minimal value of a series (idxmin), none when empty. -/
def idxmin : List (ℚ × ℚ) → Option (ℚ × ℚ)
  | [] => none
  | p :: ps => some (ps.foldl pickMin p)

theorem foldl_pickMax_first (ps : List (ℚ × ℚ)) (acc : ℚ × ℚ)
    (hs : (acc :: ps).Pairwise (fun p q => p.1 < q.1)) :
    (ps.foldl pickMax acc = acc ∨
      (ps.foldl pickMax acc ∈ ps ∧ acc.2 < (ps.foldl pickMax acc).2))
    ∧ acc.2 ≤ (ps.foldl pickMax acc).2
    ∧ (∀ q ∈ ps, q.2 ≤ (ps.foldl pickMax acc).2)
    ∧ (∀ q ∈ acc :: ps, q.2 = (ps.foldl pickMax acc).2 →
        (ps.foldl pickMax acc).1 ≤ q.1) := by
  induction ps generalizing acc with
  | nil =>
    refine ⟨Or.inl rfl, le_refl _, by simp, ?_⟩
    intro q hq hq2
    rcases List.mem_singleton.mp hq with h
    subst h; simp
  | cons q ps ih =>
    have hqs : (q :: ps).Pairwise (fun p r => p.1 < r.1) :=
      (List.pairwise_cons.mp hs).2
    have haccall : ∀ r ∈ q :: ps, acc.1 < r.1 := (List.pairwise_cons.mp hs).1
    simp only [List.foldl_cons]
    by_cases h : acc.2 < q.2
    · have hacc' : pickMax acc q = q := by simp [pickMax, h]
      rw [hacc']
      rcases ih q hqs with ⟨h1, h2, h3, h4⟩
      refine ⟨?_, ?_, ?_, ?_⟩
      · rcases h1 with h1 | h1
        · exact Or.inr ⟨by rw [h1]; exact List.mem_cons_self _ _,
            by rw [h1]; exact h⟩
        · exact Or.inr ⟨List.mem_cons_of_mem _ h1.1, lt_trans h (lt_of_lt_of_le (lt_of_le_of_lt (le_refl _) h1.2) (le_refl _))⟩
      · exact le_of_lt (lt_of_lt_of_le h h2)
      · intro r hr
        rcases List.mem_cons.mp hr with hr | hr
        · subst hr; exact h2
        · exact h3 r hr
      · intro r hr hr2
        rcases List.mem_cons.mp hr with hr | hr
        · subst hr
          exact absurd hr2 (ne_of_lt (lt_of_lt_of_le h h2))
        · exact h4 r hr hr2
    · have hacc' : pickMax acc q = acc := by simp [pickMax, h]
      rw [hacc']
      have hs' : (acc :: ps).Pairwise (fun p r => p.1 < r.1) := by
        rw [List.pairwise_cons]
        exact ⟨fun r hr => haccall r (List.mem_cons_of_mem _ hr),
          (List.pairwise_cons.mp hqs).2⟩
      rcases ih acc hs' with ⟨h1, h2, h3, h4⟩
      have hqle : q.2 ≤ acc.2 := le_of_not_lt h
      refine ⟨?_, h2, ?_, ?_⟩
      · rcases h1 with h1 | h1
        · exact Or.inl h1
        · exact Or.inr ⟨List.mem_cons_of_mem _ h1.1, h1.2⟩
      · intro r hr
        rcases List.mem_cons.mp hr with hr | hr
        · subst hr; exact le_trans hqle h2
        · exact h3 r hr
      · intro r hr hr2
        rcases List.mem_cons.mp hr with hr | hr
        · subst hr; exact h4 r (List.mem_cons_self _ _) hr2
        · rcases List.mem_cons.mp hr with hr | hr
          · subst hr
            have hacc2 : acc.2 = (ps.foldl pickMax acc).2 :=
              le_antisymm h2 (by rw [← hr2]; exact hqle)
            have := h4 acc (List.mem_cons_self _ _) hacc2
            exact le_trans this (le_of_lt (haccall r (List.mem_cons_self _ _)))
          · exact h4 r (List.mem_cons_of_mem _ hr) hr2

theorem foldl_pickMin_first (ps : List (ℚ × ℚ)) (acc : ℚ × ℚ)
    (hs : (acc :: ps).Pairwise (fun p q => p.1 < q.1)) :
    (ps.foldl pickMin acc = acc ∨
      (ps.foldl pickMin acc ∈ ps ∧ (ps.foldl pickMin acc).2 < acc.2))
    ∧ (ps.foldl pickMin acc).2 ≤ acc.2
    ∧ (∀ q ∈ ps, (ps.foldl pickMin acc).2 ≤ q.2)
    ∧ (∀ q ∈ acc :: ps, q.2 = (ps.foldl pickMin acc).2 →
        (ps.foldl pickMin acc).1 ≤ q.1) := by
  induction ps generalizing acc with
  | nil =>
    refine ⟨Or.inl rfl, le_refl _, by simp, ?_⟩
    intro q hq hq2
    rcases List.mem_singleton.mp hq with h
    subst h; simp
  | cons q ps ih =>
    have hqs : (q :: ps).Pairwise (fun p r => p.1 < r.1) :=
      (List.pairwise_cons.mp hs).2
    have haccall : ∀ r ∈ q :: ps, acc.1 < r.1 := (List.pairwise_cons.mp hs).1
    simp only [List.foldl_cons]
    by_cases h : q.2 < acc.2
    · have hacc' : pickMin acc q = q := by simp [pickMin, h]
      rw [hacc']
      rcases ih q hqs with ⟨h1, h2, h3, h4⟩
      refine ⟨?_, ?_, ?_, ?_⟩
      · rcases h1 with h1 | h1
        · exact Or.inr ⟨by rw [h1]; exact List.mem_cons_self _ _,
            by rw [h1]; exact h⟩
        · exact Or.inr ⟨List.mem_cons_of_mem _ h1.1, lt_trans h1.2 h⟩
      · exact le_of_lt (lt_of_le_of_lt h2 h)
      · intro r hr
        rcases List.mem_cons.mp hr with hr | hr
        · subst hr; exact h2
        · exact h3 r hr
      · intro r hr hr2
        rcases List.mem_cons.mp hr with hr | hr
        · subst hr
          exact absurd hr2.symm (ne_of_lt (lt_of_le_of_lt h2 h))
        · exact h4 r hr hr2
    · have hacc' : pickMin acc q = acc := by simp [pickMin, h]
      rw [hacc']
      have hs' : (acc :: ps).Pairwise (fun p r => p.1 < r.1) := by
        rw [List.pairwise_cons]
        exact ⟨fun r hr => haccall r (List.mem_cons_of_mem _ hr),
          (List.pairwise_cons.mp hqs).2⟩
      rcases ih acc hs' with ⟨h1, h2, h3, h4⟩
      have hqge : acc.2 ≤ q.2 := le_of_not_lt h
      refine ⟨?_, h2, ?_, ?_⟩
      · rcases h1 with h1 | h1
        · exact Or.inl h1
        · exact Or.inr ⟨List.mem_cons_of_mem _ h1.1, h1.2⟩
      · intro r hr
        rcases List.mem_cons.mp hr with hr | hr
        · subst hr; exact le_trans h2 hqge
        · exact h3 r hr
      · intro r hr hr2
        rcases List.mem_cons.mp hr with hr | hr
        · subst hr; exact h4 r (List.mem_cons_self _ _) hr2
        · rcases List.mem_cons.mp hr with hr | hr
          · subst hr
            have hacc2 : acc.2 = (ps.foldl pickMin acc).2 := by
              apply le_antisymm _ h2
              rw [← hr2]; exact hqge
            have hba := h4 acc (List.mem_cons_self _ _) hacc2
            exact le_trans hba (le_of_lt (haccall r (List.mem_cons_self _ _)))
          · exact h4 r (List.mem_cons_of_mem _ hr) hr2

theorem idxmax_spec (s : List (ℚ × ℚ)) (b : ℚ × ℚ)
    (hs : s.Pairwise (fun p q => p.1 < q.1))
    (hb : idxmax s = some b) :
    b ∈ s ∧ (∀ q ∈ s, q.2 ≤ b.2) ∧ (∀ q ∈ s, q.2 = b.2 → b.1 ≤ q.1) := by
  cases s with
  | nil => simp [idxmax] at hb
  | cons p ps =>
    have hb' : b = ps.foldl pickMax p := by
      simpa [idxmax] using hb.symm
    rcases foldl_pickMax_first ps p hs with ⟨h1, h2, h3, h4⟩
    subst hb'
    refine ⟨?_, ?_, h4⟩
    · rcases h1 with h1 | h1
      · rw [h1]; exact List.mem_cons_self _ _
      · exact List.mem_cons_of_mem _ h1.1
    · intro q hq
      rcases List.mem_cons.mp hq with hq | hq
      · subst hq; exact h2
      · exact h3 q hq

theorem idxmin_spec (s : List (ℚ × ℚ)) (w : ℚ × ℚ)
    (hs : s.Pairwise (fun p q => p.1 < q.1))
    (hw : idxmin s = some w) :
    w ∈ s ∧ (∀ q ∈ s, w.2 ≤ q.2) ∧ (∀ q ∈ s, q.2 = w.2 → w.1 ≤ q.1) := by
  cases s with
  | nil => simp [idxmin] at hw
  | cons p ps =>
    have hw' : w = ps.foldl pickMin p := by
      simpa [idxmin] using hw.symm
    rcases foldl_pickMin_first ps p hs with ⟨h1, h2, h3, h4⟩
    subst hw'
    refine ⟨?_, ?_, h4⟩
    · rcases h1 with h1 | h1
      · rw [h1]; exact List.mem_cons_self _ _
      · exact List.mem_cons_of_mem _ h1.1
    · intro q hq
      rcases List.mem_cons.mp hq with hq | hq
      · subst hq; exact h2
      · exact h3 q hq

/-- Sales trend analysis step.  The source checks that TotalAmount and
Month are both columns (line 52) and otherwise skips the body; it groups
by Month summing TotalAmount with ascending keys (line 53), and the
groupby silently drops every row whose month key is missing, as happens
to a row whose timestamp is NaT; plotting an empty series raises inside
pandas, as does idxmax on an empty series, so a table with the two
columns but no surviving rows makes the step raise (lines 56 and 66);
otherwise it reports the series together with its idxmax row as best
month and its idxmin row as worst month (lines 66 and 67). -/
def sales_trends_analysis (df : DF) : StepResult SalesOut :=
  match df.getNum "TotalAmount", df.getNumNa "Month" with
  | some amounts, some months =>
    match idxmax (monthly_sales (dropNullKeys (months.zip amounts))),
          idxmin (monthly_sales (dropNullKeys (months.zip amounts))) with
    | some b, some w =>
        StepResult.ok ⟨monthly_sales (dropNullKeys (months.zip amounts)), b, w⟩
    | _, _ => StepResult.failed "no numeric data to plot"
  | _, _ => StepResult.skipped

/-- C5: for every non-empty monthly sales series, the reported best month
attains the true maximum of the series and the reported worst month
attains the true minimum; on ties, the month reported is the first
occurring in ascending-month order, that is, the least tied month. -/
theorem c5_best_worst_month (df : DF) (out : SalesOut)
    (hok : sales_trends_analysis df = StepResult.ok out) :
    (out.best ∈ out.series
      ∧ (∀ q ∈ out.series, q.2 ≤ out.best.2)
      ∧ (∀ q ∈ out.series, q.2 = out.best.2 → out.best.1 ≤ q.1))
    ∧ (out.worst ∈ out.series
      ∧ (∀ q ∈ out.series, out.worst.2 ≤ q.2)
      ∧ (∀ q ∈ out.series, q.2 = out.worst.2 → out.worst.1 ≤ q.1)) := by
  unfold sales_trends_analysis at hok
  cases hA : df.getNum "TotalAmount" with
  | none => simp [hA] at hok
  | some amounts =>
    cases hM : df.getNumNa "Month" with
    | none => simp [hA, hM] at hok
    | some months =>
      cases hmx : idxmax (monthly_sales (dropNullKeys (months.zip amounts))) with
      | none => simp [hA, hM, hmx] at hok
      | some b =>
        cases hmn : idxmin (monthly_sales (dropNullKeys (months.zip amounts))) with
        | none => simp [hA, hM, hmx, hmn] at hok
        | some w =>
          simp only [hA, hM, hmx, hmn] at hok
          have hout : (⟨monthly_sales (dropNullKeys (months.zip amounts)), b, w⟩
              : SalesOut) = out := by
            injection hok
          subst hout
          have hsorted := monthly_sales_key_sorted (dropNullKeys (months.zip amounts))
          exact ⟨idxmax_spec _ _ hsorted hmx, idxmin_spec _ _ hsorted hmn⟩

theorem c5_best_worst_month_witness :
    (sales_trends_analysis
        [("TotalAmount", ColData.num [5, 5]), ("Month", ColData.num [1, 2])]
      = StepResult.ok ⟨[(1, 5), (2, 5)], (1, 5), (1, 5)⟩)
    ∧ (((1, 5) : ℚ × ℚ) ∈ ([(1, 5), (2, 5)] : List (ℚ × ℚ))) := by
  have hA : DF.getNum [("TotalAmount", ColData.num [5, 5]),
      ("Month", ColData.num [1, 2])] "TotalAmount" = some [5, 5] := rfl
  have hM : DF.getNumNa [("TotalAmount", ColData.num [5, 5]),
      ("Month", ColData.num [1, 2])] "Month" = some [some 1, some 2] := rfl
  have hdrop : dropNullKeys ([some (1 : ℚ), some 2].zip [(5 : ℚ), 5])
      = [((1 : ℚ), (5 : ℚ)), (2, 5)] := rfl
  have hser : monthly_sales [((1 : ℚ), (5 : ℚ)), (2, 5)] = [(1, 5), (2, 5)] := by
    norm_num [monthly_sales, sortAsc, keyedSum, List.dedup, List.insertionSort,
      List.orderedInsert]
  have hmx : idxmax [((1 : ℚ), (5 : ℚ)), (2, 5)] = some (1, 5) := by
    norm_num [idxmax, pickMax]
  have hmn : idxmin [((1 : ℚ), (5 : ℚ)), (2, 5)] = some (1, 5) := by
    norm_num [idxmin, pickMin]
  have hok : sales_trends_analysis
      [("TotalAmount", ColData.num [5, 5]), ("Month", ColData.num [1, 2])]
      = StepResult.ok ⟨[(1, 5), (2, 5)], (1, 5), (1, 5)⟩ := by
    unfold sales_trends_analysis
    simp only [hA, hM]
    rw [hdrop, hser, hmx, hmn]
  exact ⟨hok, ((c5_best_worst_month _ _ hok).1).1⟩

/-- Counts of each distinct non-missing value, most frequent first: the
behavior of value_counts, which excludes missing values and sorts by
count descending. -/
def value_counts (cs : List (Option String)) : List (String × Nat) :=
  List.insertionSort (fun a b => b.2 ≤ a.2)
    ((cs.filterMap id).dedup.map (fun k => (k, (cs.filterMap id).count k)))

/-- Number of distinct non-missing values: the behavior of nunique,
which excludes missing values. -/
def nunique (cs : List (Option String)) : Nat := (cs.filterMap id).dedup.length

/-- Per-customer spending: group the (customer, amount) rows by customer,
dropping rows with a missing customer, sum each group, sort by total
descending (groupby sum followed by sort_values ascending false). -/
def customer_spending (rows : List (Option String × ℚ)) : List (String × ℚ) :=
  List.insertionSort (fun a b => b.2 ≤ a.2)
    (((dropNullKeys rows).map (·.1)).dedup.map
      (fun k => (k, keyedSum (dropNullKeys rows) k)))

/-- Report payload of the customer behavior step: the purchase frequency
table, the unique customer count, and, when the monetary column is also
present, the per-customer spending table. -/
structure CustomerOut where
  freq : List (String × Nat)
  uniqueCustomers : Nat
  spending : Option (List (String × ℚ))
deriving DecidableEq

/-- Customer behavior analysis step.  The source checks that CustomerID
is a column (line 75) and otherwise skips the body; it reports the value
counts of CustomerID (line 77) and the unique customer count (line 79);
when TotalAmount is also a column it additionally reports per-customer
spending (line 86) and draws a histogram, which accepts an empty input,
so this step never raises. -/
def customer_behavior_analysis (df : DF) : StepResult CustomerOut :=
  match df.getStr "CustomerID" with
  | some cs =>
    StepResult.ok
      ⟨value_counts cs, nunique cs,
        match df.getNum "TotalAmount" with
        | some amounts => some (customer_spending (cs.zip amounts))
        | none => none⟩
  | none => StepResult.skipped

theorem filterMap_id_length (cs : List (Option String)) :
    (cs.filterMap id).length = (cs.filter (fun c => c.isSome)).length := by
  induction cs with
  | nil => rfl
  | cons c cs ih =>
    cases c with
    | none => simpa using ih
    | some k => simpa using ih

theorem mem_filterMap_id (cs : List (Option String)) (k : String) :
    k ∈ cs.filterMap id ↔ some k ∈ cs := by
  simp [List.mem_filterMap]

theorem dropNullKeys_fst_mem (rows : List (Option String × ℚ)) (k : String) :
    k ∈ (dropNullKeys rows).map (·.1) ↔ some k ∈ rows.map (·.1) := by
  induction rows with
  | nil => simp [dropNullKeys]
  | cons r rows ih =>
    cases hr : r.1 with
    | none => simp [dropNullKeys, List.filterMap_cons, hr] at ih ⊢; exact ih
    | some k' =>
      simp [dropNullKeys, List.filterMap_cons, hr] at ih ⊢
      constructor
      · rintro (h | h)
        · exact Or.inl h
        · exact Or.inr (ih.mp h)
      · rintro (h | h)
        · exact Or.inl h
        · exact Or.inr (ih.mpr h)

theorem keyedSum_dropNullKeys (rows : List (Option String × ℚ)) (k : String) :
    keyedSum (dropNullKeys rows) k
      = ((rows.filter (fun r => decide (r.1 = some k))).map (·.2)).sum := by
  induction rows with
  | nil => rfl
  | cons r rows ih =>
    rcases r with ⟨c, v⟩
    cases c with
    | none => simpa [dropNullKeys, keyedSum, List.filter_cons] using ih
    | some q =>
      by_cases hk : q = k
      · subst hk
        simp only [dropNullKeys, List.filterMap_cons, keyedSum, List.filter_cons] at ih ⊢
        simpa using ih
      · simp only [dropNullKeys, List.filterMap_cons, keyedSum, List.filter_cons] at ih ⊢
        simpa [hk] using ih

/-- C10: rows whose customer identifier is missing are excluded from the
purchase-frequency counts, from the unique-customer count, and from the
per-customer spending totals; the sum of all reported per-customer
frequencies equals the number of rows with a non-missing customer
identifier, not the total row count. -/
theorem c10_null_customers_excluded (cs : List (Option String)) (amounts : List ℚ)
    (hlen : cs.length = amounts.length) :
    ((value_counts cs).map (·.2)).sum = (cs.filter (fun c => c.isSome)).length
    ∧ (∀ k, k ∈ (value_counts cs).map (·.1) ↔ some k ∈ cs)
    ∧ nunique cs = (value_counts cs).length
    ∧ (∀ k, k ∈ (customer_spending (cs.zip amounts)).map (·.1) ↔ some k ∈ cs)
    ∧ (∀ k q, (k, q) ∈ customer_spending (cs.zip amounts) →
        q = (((cs.zip amounts).filter (fun r => decide (r.1 = some k))).map (·.2)).sum) := by
  have hperm := List.perm_insertionSort (fun a b : String × Nat => b.2 ≤ a.2)
    ((cs.filterMap id).dedup.map (fun k => (k, (cs.filterMap id).count k)))
  have hperm2 := List.perm_insertionSort (fun a b : String × ℚ => b.2 ≤ a.2)
    (((dropNullKeys (cs.zip amounts)).map (·.1)).dedup.map
      (fun k => (k, keyedSum (dropNullKeys (cs.zip amounts)) k)))
  have hfst : (cs.zip amounts).map (·.1) = cs := List.map_fst_zip cs amounts (le_of_eq hlen)
  refine ⟨?_, ?_, ?_, ?_, ?_⟩
  · have hsum := (hperm.map (fun p : String × Nat => p.2)).sum_eq
    unfold value_counts
    rw [hsum, List.map_map]
    have : ((fun p : String × Nat => p.2) ∘ fun k => (k, (cs.filterMap id).count k))
        = fun k => (cs.filterMap id).count k := rfl
    rw [this, List.sum_map_count_dedup_eq_length, filterMap_id_length]
  · intro k
    unfold value_counts
    rw [(hperm.map (fun p : String × Nat => p.1)).mem_iff, List.map_map]
    have hcomp1 : ((fun p : String × Nat => p.1) ∘ fun k => (k, (cs.filterMap id).count k))
        = id := rfl
    rw [hcomp1, List.map_id, List.mem_dedup]
    exact mem_filterMap_id cs k
  · unfold nunique value_counts
    rw [hperm.length_eq]
    simp [List.length_map]
  · intro k
    unfold customer_spending
    rw [(hperm2.map (fun p : String × ℚ => p.1)).mem_iff, List.map_map]
    have hcomp : ((fun p : String × ℚ => p.1)
          ∘ fun k => (k, keyedSum (dropNullKeys (cs.zip amounts)) k))
        = id := rfl
    rw [hcomp, List.map_id, List.mem_dedup, dropNullKeys_fst_mem, hfst]
  · intro k q hkq
    unfold customer_spending at hkq
    rw [hperm2.mem_iff] at hkq
    rcases List.mem_map.mp hkq with ⟨k', hk', heq⟩
    rw [Prod.mk.injEq] at heq
    rcases heq with ⟨h1, h2⟩
    subst h1
    rw [← h2, keyedSum_dropNullKeys]

theorem c10_null_customers_excluded_witness :
    (([some "A", some "A", none] : List (Option String)).length
        = ([10, 20, 5] : List ℚ).length)
    ∧ ((value_counts [some "A", some "A", none]).map (·.2)).sum
        = (([some "A", some "A", none] : List (Option String)).filter
            (fun c => c.isSome)).length :=
  ⟨by decide, (c10_null_customers_excluded [some "A", some "A", none] [10, 20, 5]
    (by decide)).1⟩

/-- Cumulative sums of a list of values, as produced by cumsum: entry i
is the sum of the first i plus one values. -/
def cumsum : List ℚ → List ℚ
  | [] => []
  | v :: vs => v :: (cumsum vs).map (fun c => v + c)

/-- Per-product revenue table: group the (product, amount) rows by
product, dropping rows with a missing product, sum each group, and sort
by revenue descending (groupby sum followed by sort_values descending,
line 109). -/
def product_revenue (rows : List (Option String × ℚ)) : List (String × ℚ) :=
  List.insertionSort (fun a b => b.2 ≤ a.2)
    (((dropNullKeys rows).map (·.1)).dedup.map
      (fun k => (k, keyedSum (dropNullKeys rows) k)))

/-- Cumulative percentage of total revenue at each rank (line 126). -/
def cumulative_pct (vals : List ℚ) : List ℚ :=
  (cumsum vals).map (fun c => c / vals.sum * 100)

/-- Count of leading products whose cumulative percentage is at most
eighty (line 127). -/
def top_20_pct (vals : List ℚ) : Nat :=
  (cumulative_pct vals).countP (fun c => decide (c ≤ 80))

/-- Report payload of the revenue driver step: the ranked per-product
revenue table and the 80/20 concentration count. -/
structure RevenueOut where
  revenue : List (String × ℚ)
  top20 : Nat
deriving DecidableEq

/-- Revenue driver analysis step.  The source checks that Product and
TotalAmount are both columns (line 107) and otherwise skips the body;
plotting the head of an empty per-product table raises inside pandas
(line 116), so the step fails when the grouped table is empty; otherwise
it reports the ranked revenues and the 80/20 count. -/
def revenue_driver_analysis (df : DF) : StepResult RevenueOut :=
  match df.getStr "Product", df.getNum "TotalAmount" with
  | some ids, some amounts =>
    match product_revenue (ids.zip amounts) with
    | [] => StepResult.failed "no numeric data to plot"
    | p :: pr => StepResult.ok ⟨p :: pr, top_20_pct ((p :: pr).map (·.2))⟩
  | _, _ => StepResult.skipped

theorem cumsum_length (vs : List ℚ) : (cumsum vs).length = vs.length := by
  induction vs with
  | nil => rfl
  | cons v vs ih => simp [cumsum, ih]

theorem cumsum_getElem? (vs : List ℚ) (i : Nat) (h : i < vs.length) :
    (cumsum vs)[i]? = some ((vs.take (i + 1)).sum) := by
  induction vs generalizing i with
  | nil => simp at h
  | cons v vs ih =>
    cases i with
    | zero => simp [cumsum]
    | succ i =>
      have h' : i < vs.length := Nat.lt_of_succ_lt_succ h
      simp only [cumsum, List.getElem?_cons_succ, List.getElem?_map, ih i h',
        List.take_succ_cons, List.sum_cons]
      rfl

theorem cumsum_getD (vs : List ℚ) (i : Nat) (h : i < vs.length) :
    (cumsum vs).getD i 0 = (vs.take (i + 1)).sum := by
  rw [List.getD_eq_getElem?_getD, cumsum_getElem? vs i h]
  rfl

theorem countP_downward_closed (p : ℚ → Bool) (l : List ℚ)
    (hdc : ∀ i j, i ≤ j → j < l.length →
      p (l.getD j 0) = true → p (l.getD i 0) = true) :
    l.countP p ≤ l.length
    ∧ (∀ i, i < l.countP p → p (l.getD i 0) = true)
    ∧ (l.countP p < l.length → p (l.getD (l.countP p) 0) = false) := by
  induction l with
  | nil => simp
  | cons x xs ih =>
    have hdc' : ∀ i j, i ≤ j → j < xs.length →
        p (xs.getD j 0) = true → p (xs.getD i 0) = true := by
      intro i j hij hj hpj
      exact hdc (i + 1) (j + 1) (Nat.succ_le_succ hij) (Nat.succ_lt_succ hj) hpj
    by_cases hpx : p x = true
    · rcases ih hdc' with ⟨ih1, ih2, ih3⟩
      rw [List.countP_cons_of_pos _ _ hpx]
      refine ⟨Nat.succ_le_succ ih1, ?_, ?_⟩
      · intro i hi
        cases i with
        | zero => simpa using hpx
        | succ i => exact ih2 i (Nat.lt_of_succ_lt_succ hi)
      · intro hlt
        have := ih3 (Nat.lt_of_succ_lt_succ hlt)
        simpa using this
    · have hall : ∀ a ∈ xs, ¬ p a = true := by
        intro a ha hpa
        rcases List.getElem_of_mem ha with ⟨j, hj, hje⟩
        have hgd : xs[j]?.getD 0 = a := by
          rw [List.getElem?_eq_getElem hj, hje]
          rfl
        have := hdc 0 (j + 1) (Nat.zero_le _) (Nat.succ_lt_succ hj)
          (by simp [List.getD_eq_getElem?_getD, hgd, hpa])
        exact hpx (by simpa using this)
      have hzero : xs.countP p = 0 := by
        rw [List.countP_eq_zero]
        exact hall
      rw [List.countP_cons_of_neg _ _ (by simpa using hpx), hzero]
      refine ⟨Nat.zero_le _, ?_, ?_⟩
      · intro i hi; exact absurd hi (Nat.not_lt_zero i)
      · intro _
        simpa using hpx

/-- Sum of the first i values of a list. -/
def prefixSum (vs : List ℚ) (i : Nat) : ℚ := (vs.take i).sum

theorem prefixSum_succ (vs : List ℚ) (i : Nat) (h : i < vs.length) :
    prefixSum vs (i + 1) = prefixSum vs i + vs.getD i 0 := by
  unfold prefixSum
  rw [List.take_succ, List.sum_append, List.getD_eq_getElem?_getD,
    List.getElem?_eq_getElem h]
  simp

theorem prefixSum_mono_of_nonneg (vs : List ℚ) (i : Nat) :
    ∀ j, i ≤ j → j ≤ vs.length →
      (∀ t, i ≤ t → t < j → 0 ≤ vs.getD t 0) →
      prefixSum vs i ≤ prefixSum vs j := by
  intro j hij
  induction j, hij using Nat.le_induction with
  | base => intro _ _; exact le_refl _
  | succ j hij ih =>
    intro hj hseg
    have hj' : j < vs.length := Nat.lt_of_succ_le hj
    have h1 : prefixSum vs i ≤ prefixSum vs j :=
      ih (le_of_lt hj') (fun t ht htj => hseg t ht (Nat.lt_succ_of_lt htj))
    have h2 : 0 ≤ vs.getD j 0 := hseg j hij (Nat.lt_succ_self j)
    rw [prefixSum_succ vs j hj']
    linarith

theorem prefixSum_anti_of_nonpos (vs : List ℚ) (i : Nat) :
    ∀ j, i ≤ j → j ≤ vs.length →
      (∀ t, i ≤ t → t < j → vs.getD t 0 ≤ 0) →
      prefixSum vs j ≤ prefixSum vs i := by
  intro j hij
  induction j, hij using Nat.le_induction with
  | base => intro _ _; exact le_refl _
  | succ j hij ih =>
    intro hj hseg
    have hj' : j < vs.length := Nat.lt_of_succ_le hj
    have h1 : prefixSum vs j ≤ prefixSum vs i :=
      ih (le_of_lt hj') (fun t ht htj => hseg t ht (Nat.lt_succ_of_lt htj))
    have h2 : vs.getD j 0 ≤ 0 := hseg j hij (Nat.lt_succ_self j)
    rw [prefixSum_succ vs j hj']
    linarith

theorem exists_neg_of_prefixSum_lt (vs : List ℚ) (i j : Nat)
    (hij : i ≤ j) (hj : j ≤ vs.length)
    (hlt : prefixSum vs j < prefixSum vs i) :
    ∃ t, i ≤ t ∧ t < j ∧ vs.getD t 0 < 0 := by
  by_contra hno
  push_neg at hno
  exact absurd (prefixSum_mono_of_nonneg vs i j hij hj hno) (not_le.mpr hlt)

theorem sorted_getD_le (vs : List ℚ)
    (hsort : vs.Pairwise (fun a b => b ≤ a))
    (s t : Nat) (hst : s ≤ t) (ht : t < vs.length) :
    vs.getD t 0 ≤ vs.getD s 0 := by
  rcases Nat.eq_or_lt_of_le hst with h | h
  · subst h; exact le_refl _
  · have hs : s < vs.length := lt_trans h ht
    have hrel := List.pairwise_iff_getElem.mp hsort s t hs ht h
    rw [List.getD_eq_getElem?_getD, List.getD_eq_getElem?_getD,
      List.getElem?_eq_getElem hs, List.getElem?_eq_getElem ht]
    simpa using hrel

theorem prefixSum_le_of_le (vs : List ℚ)
    (hsort : vs.Pairwise (fun a b => b ≤ a)) (hT : 0 < vs.sum)
    (i j : Nat) (hij : i ≤ j) (hj : j < vs.length)
    (hcj : prefixSum vs (j + 1) ≤ 80 / 100 * vs.sum) :
    prefixSum vs (i + 1) ≤ 80 / 100 * vs.sum := by
  by_contra hci
  push_neg at hci
  have hlt : prefixSum vs (j + 1) < prefixSum vs (i + 1) := lt_of_le_of_lt hcj hci
  have hij1 : i + 1 ≤ j + 1 := Nat.succ_le_succ hij
  have hj1 : j + 1 ≤ vs.length := Nat.succ_le_of_lt hj
  rcases exists_neg_of_prefixSum_lt vs (i + 1) (j + 1) hij1 hj1 hlt with
    ⟨t, hti, htj, htneg⟩
  have hseg : ∀ m, j + 1 ≤ m → m < vs.length → vs.getD m 0 ≤ 0 := by
    intro m hm hmlen
    have htm : t ≤ m := le_trans (Nat.le_of_lt_succ htj) (le_trans (Nat.le_succ j) hm)
    exact le_of_lt (lt_of_le_of_lt (sorted_getD_le vs hsort t m htm hmlen) htneg)
  have hfin : prefixSum vs vs.length ≤ prefixSum vs (j + 1) :=
    prefixSum_anti_of_nonpos vs (j + 1) vs.length hj1 (le_refl _) hseg
  have hsum : prefixSum vs vs.length = vs.sum := by
    unfold prefixSum; rw [List.take_length]
  rw [hsum] at hfin
  have hcontra : vs.sum ≤ 80 / 100 * vs.sum := le_trans hfin hcj
  linarith

theorem pareto_core (vs : List ℚ)
    (hsort : vs.Pairwise (fun a b => b ≤ a)) (hT : 0 < vs.sum) :
    top_20_pct vs ≤ vs.length
    ∧ (vs.take (top_20_pct vs)).sum ≤ 80 / 100 * vs.sum
    ∧ (top_20_pct vs < vs.length →
        80 / 100 * vs.sum < (vs.take (top_20_pct vs + 1)).sum) := by
  have hTne : vs.sum ≠ 0 := ne_of_gt hT
  have hlenp : (cumulative_pct vs).length = vs.length := by
    simp [cumulative_pct, cumsum_length]
  have hget : ∀ i, i < vs.length →
      (cumulative_pct vs).getD i 0 = (vs.take (i + 1)).sum / vs.sum * 100 := by
    intro i hi
    unfold cumulative_pct
    rw [List.getD_eq_getElem?_getD, List.getElem?_map, cumsum_getElem? vs i hi]
    rfl
  have hpred : ∀ c : ℚ, (decide (c / vs.sum * 100 ≤ 80) = true)
      ↔ c ≤ 80 / 100 * vs.sum := by
    intro c
    rw [decide_eq_true_eq, div_mul_eq_mul_div, div_le_iff₀ hT]
    constructor <;> intro h <;> linarith
  have hdc : ∀ i j, i ≤ j → j < (cumulative_pct vs).length →
      (fun c => decide (c ≤ 80)) ((cumulative_pct vs).getD j 0) = true →
      (fun c => decide (c ≤ 80)) ((cumulative_pct vs).getD i 0) = true := by
    intro i j hij hjl hpj
    have hjv : j < vs.length := by rw [← hlenp]; exact hjl
    have hiv : i < vs.length := lt_of_le_of_lt hij hjv
    rw [hget j hjv] at hpj
    rw [hget i hiv]
    have hj80 : (vs.take (j + 1)).sum ≤ 80 / 100 * vs.sum := (hpred _).mp hpj
    exact (hpred _).mpr (prefixSum_le_of_le vs hsort hT i j hij hjv hj80)
  rcases countP_downward_closed (fun c => decide (c ≤ 80)) (cumulative_pct vs) hdc with
    ⟨hN1, hN2, hN3⟩
  have hNdef : top_20_pct vs = (cumulative_pct vs).countP (fun c => decide (c ≤ 80)) := rfl
  refine ⟨?_, ?_, ?_⟩
  · rw [hNdef, ← hlenp]; exact hN1
  · cases hN : top_20_pct vs with
    | zero =>
      simp only [List.take_zero, List.sum_nil]
      linarith
    | succ m =>
      have hm : m < top_20_pct vs := by rw [hN]; exact Nat.lt_succ_self m
      have hmv : m < vs.length := by
        have hle : top_20_pct vs ≤ vs.length := by
          rw [hNdef, ← hlenp]; exact hN1
        exact lt_of_lt_of_le hm hle
      have hp := hN2 m (by rw [← hNdef]; exact hm)
      rw [hget m hmv] at hp
      exact (hpred _).mp hp
  · intro hNlt
    have hp := hN3 (by rw [← hNdef, hlenp]; exact hNlt)
    rw [← hNdef] at hp
    have hNv : top_20_pct vs < vs.length := hNlt
    rw [hget (top_20_pct vs) hNv] at hp
    have : ¬ ((vs.take (top_20_pct vs + 1)).sum ≤ 80 / 100 * vs.sum) := by
      intro hle
      rw [(hpred _).mpr hle] at hp
      cases hp
    exact lt_of_not_le this

instance : IsTotal (String × ℚ) (fun a b => b.2 ≤ a.2) :=
  ⟨fun a b => le_total b.2 a.2⟩

instance : IsTrans (String × ℚ) (fun a b => b.2 ≤ a.2) :=
  ⟨fun _ _ _ hab hbc => le_trans hbc hab⟩

/-- Revenue column of the ranked per-product table. -/
def revenue_values (ids : List (Option String)) (amounts : List ℚ) : List ℚ :=
  (product_revenue (ids.zip amounts)).map (·.2)

theorem revenue_values_sorted (ids : List (Option String)) (amounts : List ℚ) :
    (revenue_values ids amounts).Pairwise (fun a b => b ≤ a) := by
  unfold revenue_values product_revenue
  have hs := List.sorted_insertionSort (fun a b : String × ℚ => b.2 ≤ a.2)
    (((dropNullKeys (ids.zip amounts)).map (·.1)).dedup.map
      (fun k => (k, keyedSum (dropNullKeys (ids.zip amounts)) k)))
  exact hs.map _ (fun a b h => h)

/-- C2 (amended): for every table with product and monetary columns whose
total per-product revenue is positive, the count N reported by the 80/20
analysis satisfies: the cumulative revenue of the top N products is at
most 80 percent of total revenue, and the cumulative revenue of the top
N plus one products exceeds 80 percent unless N is the total product
count; when the top product alone exceeds 80 percent the count is zero,
which is not an error.  Without the positivity proviso the claim fails,
see the counterexample. -/
theorem c2_pareto_count (ids : List (Option String)) (amounts : List ℚ)
    (hpos : 0 < (revenue_values ids amounts).sum) :
    top_20_pct (revenue_values ids amounts) ≤ (revenue_values ids amounts).length
    ∧ ((revenue_values ids amounts).take (top_20_pct (revenue_values ids amounts))).sum
        ≤ 80 / 100 * (revenue_values ids amounts).sum
    ∧ (top_20_pct (revenue_values ids amounts) < (revenue_values ids amounts).length →
        80 / 100 * (revenue_values ids amounts).sum
          < ((revenue_values ids amounts).take
              (top_20_pct (revenue_values ids amounts) + 1)).sum) :=
  pareto_core (revenue_values ids amounts) (revenue_values_sorted ids amounts) hpos

theorem c2_pareto_count_witness :
    (0 < (revenue_values [some "P"] [10]).sum)
    ∧ top_20_pct (revenue_values [some "P"] [10])
        ≤ (revenue_values [some "P"] [10]).length := by
  have hrv : revenue_values [some "P"] [10] = [10] := by
    norm_num [revenue_values, product_revenue, dropNullKeys, keyedSum,
      List.insertionSort, List.orderedInsert, List.filterMap_cons, List.filter_cons]
  have hpos : 0 < (revenue_values [some "P"] [10]).sum := by
    rw [hrv]; norm_num
  exact ⟨hpos, (c2_pareto_count [some "P"] [10] hpos).1⟩

/-- Counterexample to C2 as stated: a single product with negative total
revenue.  The code counts zero leading products, yet the cumulative
revenue of the top zero products, namely zero, is strictly greater than
80 percent of the negative total, so the claimed inequality fails (and
zero differs from the total product count of one). -/
theorem c2_counterexample :
    top_20_pct (revenue_values [some "P"] [-10]) = 0
    ∧ (revenue_values [some "P"] [-10]).length = 1
    ∧ ¬ (((revenue_values [some "P"] [-10]).take
          (top_20_pct (revenue_values [some "P"] [-10]))).sum
        ≤ 80 / 100 * (revenue_values [some "P"] [-10]).sum) := by
  have hrv : revenue_values [some "P"] [-10] = [-10] := by
    norm_num [revenue_values, product_revenue, dropNullKeys, keyedSum,
      List.insertionSort, List.orderedInsert, List.filterMap_cons, List.filter_cons]
  have htp : top_20_pct (revenue_values [some "P"] [-10]) = 0 := by
    rw [hrv]
    norm_num [top_20_pct, cumulative_pct, cumsum, List.countP, List.countP.go]
  refine ⟨htp, by rw [hrv]; rfl, ?_⟩
  rw [htp, hrv]
  norm_num

theorem list_cs (ps : List (ℚ × ℚ)) :
    ((ps.map (fun p => p.1 * p.2)).sum) ^ 2
      ≤ ((ps.map (fun p => p.1 ^ 2)).sum) * ((ps.map (fun p => p.2 ^ 2)).sum) := by
  induction ps with
  | nil => simp
  | cons p ps ih =>
    have hA : 0 ≤ (ps.map (fun p => p.1 ^ 2)).sum :=
      List.sum_nonneg (by intro a ha; rcases List.mem_map.mp ha with ⟨q, _, rfl⟩; positivity)
    have hB : 0 ≤ (ps.map (fun p => p.2 ^ 2)).sum :=
      List.sum_nonneg (by intro a ha; rcases List.mem_map.mp ha with ⟨q, _, rfl⟩; positivity)
    simp only [List.map_cons, List.sum_cons]
    set x := p.1
    set y := p.2
    set S := (ps.map (fun p => p.1 * p.2)).sum
    set A := (ps.map (fun p => p.1 ^ 2)).sum
    set B := (ps.map (fun p => p.2 ^ 2)).sum
    have hABS : 0 ≤ A * B - S ^ 2 := by linarith
    rcases eq_or_lt_of_le hB with hB0 | hBpos
    · have hS : S = 0 := by
        have h1 : S ^ 2 ≤ 0 := by
          have h2 := ih
          rw [← hB0] at h2
          simpa using h2
        exact (pow_eq_zero_iff (by norm_num)).mp (le_antisymm h1 (sq_nonneg S))
      rw [hS, ← hB0]
      nlinarith [sq_nonneg y, sq_nonneg x, hA]
    · nlinarith [sq_nonneg (x * B - y * S), mul_nonneg (sq_nonneg y) hABS, hBpos, hABS]

/-- Mean of a numeric column. -/
def meanQ (xs : List ℚ) : ℚ := xs.sum / xs.length

/-- Sum over paired rows of the products of deviations from the column
means: numerator of the Pearson coefficient, and its denominators when
both columns coincide. -/
def devSum (xs ys : List ℚ) : ℚ :=
  ((xs.zip ys).map (fun p => (p.1 - meanQ xs) * (p.2 - meanQ ys))).sum

/-- Pearson correlation of two columns, the entries that corr computes:
undefined (NaN) when either column has zero squared deviation, for
example a constant column; otherwise the deviation product sum divided
by the product of the square roots of the two squared deviation sums. -/
noncomputable def corr (xs ys : List ℚ) : Option ℝ :=
  if devSum xs xs = 0 ∨ devSum ys ys = 0 then none
  else some ((devSum xs ys : ℝ)
    / (Real.sqrt (devSum xs xs) * Real.sqrt (devSum ys ys)))

/-- Numeric columns of the table, as selected by select_dtypes with
np.number (line 139); a parsed timestamp column is not numeric. -/
def DF.numericCols (df : DF) : List (String × List ℚ) :=
  df.filterMap (fun p => match p.2 with
    | ColData.num vs => some (p.1, vs)
    | _ => none)

/-- Pairwise correlation matrix over the numeric columns (line 141). -/
noncomputable def correlation_matrix (df : DF) : List (List (Option ℝ)) :=
  (DF.numericCols df).map (fun ci =>
    (DF.numericCols df).map (fun cj => corr ci.2 cj.2))

/-- Statistical analysis step: runs only when there are at least two
numeric columns (line 140); the heatmap accepts any matrix, so the step
never raises. -/
noncomputable def statistical_analysis (df : DF) : StepResult (List (List (Option ℝ))) :=
  if 1 < (DF.numericCols df).length then StepResult.ok (correlation_matrix df)
  else StepResult.skipped

theorem zip_self_eq_map (xs : List ℚ) : xs.zip xs = xs.map (fun a => (a, a)) := by
  induction xs with
  | nil => rfl
  | cons a l ih => simp [List.zip_cons_cons, ih]

theorem devSum_self (xs : List ℚ) :
    devSum xs xs = (xs.map (fun a => (a - meanQ xs) ^ 2)).sum := by
  unfold devSum
  rw [zip_self_eq_map, List.map_map]
  apply congrArg List.sum
  apply List.map_congr_left
  intro a _
  show (a - meanQ xs) * (a - meanQ xs) = (a - meanQ xs) ^ 2
  ring

theorem devSum_self_nonneg (xs : List ℚ) : 0 ≤ devSum xs xs := by
  rw [devSum_self]
  exact List.sum_nonneg (by
    intro a ha
    rcases List.mem_map.mp ha with ⟨q, _, rfl⟩
    positivity)

theorem devSum_comm (xs ys : List ℚ) : devSum xs ys = devSum ys xs := by
  unfold devSum
  rw [← List.zip_swap xs ys, List.map_map]
  apply congrArg List.sum
  apply List.map_congr_left
  intro p _
  show (p.1 - meanQ xs) * (p.2 - meanQ ys) = (p.2 - meanQ ys) * (p.1 - meanQ xs)
  ring

theorem devSum_sq_le (xs ys : List ℚ) (hlen : xs.length = ys.length) :
    (devSum xs ys) ^ 2 ≤ devSum xs xs * devSum ys ys := by
  have key := list_cs ((xs.zip ys).map (fun p => (p.1 - meanQ xs, p.2 - meanQ ys)))
  rw [List.map_map, List.map_map, List.map_map] at key
  have h1 : ((xs.zip ys).map ((fun p : ℚ × ℚ => p.1 * p.2)
      ∘ fun p : ℚ × ℚ => (p.1 - meanQ xs, p.2 - meanQ ys)))
      = (xs.zip ys).map (fun p => (p.1 - meanQ xs) * (p.2 - meanQ ys)) := rfl
  have h2 : ((xs.zip ys).map ((fun p : ℚ × ℚ => p.1 ^ 2)
      ∘ fun p : ℚ × ℚ => (p.1 - meanQ xs, p.2 - meanQ ys)))
      = ((xs.zip ys).map Prod.fst).map (fun a => (a - meanQ xs) ^ 2) := by
    rw [List.map_map]; rfl
  have h3 : ((xs.zip ys).map ((fun p : ℚ × ℚ => p.2 ^ 2)
      ∘ fun p : ℚ × ℚ => (p.1 - meanQ xs, p.2 - meanQ ys)))
      = ((xs.zip ys).map Prod.snd).map (fun a => (a - meanQ ys) ^ 2) := by
    rw [List.map_map]; rfl
  rw [h1, h2, h3, List.map_fst_zip xs ys (le_of_eq hlen),
    List.map_snd_zip xs ys (le_of_eq hlen.symm)] at key
  rw [devSum, devSum_self, devSum_self]
  exact key

theorem corr_comm (xs ys : List ℚ) : corr xs ys = corr ys xs := by
  unfold corr
  by_cases hc : devSum xs xs = 0 ∨ devSum ys ys = 0
  · rw [if_pos hc, if_pos (Or.symm hc)]
  · rw [if_neg hc, if_neg (fun h => hc (Or.symm h))]
    rw [devSum_comm xs ys, mul_comm]

theorem corr_mem_Icc (xs ys : List ℚ) (hlen : xs.length = ys.length)
    (r : ℝ) (hr : corr xs ys = some r) : -1 ≤ r ∧ r ≤ 1 := by
  unfold corr at hr
  by_cases hc : devSum xs xs = 0 ∨ devSum ys ys = 0
  · rw [if_pos hc] at hr; cases hr
  · rw [if_neg hc] at hr
    push_neg at hc
    obtain ⟨hxx, hyy⟩ := hc
    have hxxpos : (0 : ℝ) < (devSum xs xs : ℝ) := by
      exact_mod_cast lt_of_le_of_ne (devSum_self_nonneg xs) (Ne.symm hxx)
    have hyypos : (0 : ℝ) < (devSum ys ys : ℝ) := by
      exact_mod_cast lt_of_le_of_ne (devSum_self_nonneg ys) (Ne.symm hyy)
    have hs2 : ((devSum xs ys : ℚ) : ℝ) ^ 2
        ≤ (devSum xs xs : ℝ) * (devSum ys ys : ℝ) := by
      exact_mod_cast devSum_sq_le xs ys hlen
    have hd : (0 : ℝ) < Real.sqrt (devSum xs xs) * Real.sqrt (devSum ys ys) :=
      mul_pos (Real.sqrt_pos.mpr hxxpos) (Real.sqrt_pos.mpr hyypos)
    have habs : |((devSum xs ys : ℚ) : ℝ)|
        ≤ Real.sqrt (devSum xs xs) * Real.sqrt (devSum ys ys) := by
      rw [← Real.sqrt_sq_eq_abs, ← Real.sqrt_mul (le_of_lt hxxpos)]
      exact Real.sqrt_le_sqrt hs2
    have hrdef : ((devSum xs ys : ℚ) : ℝ)
        / (Real.sqrt (devSum xs xs) * Real.sqrt (devSum ys ys)) = r := by
      injection hr
    have habs' : |r| ≤ 1 := by
      rw [← hrdef, abs_div, abs_of_pos hd]
      exact (div_le_one hd).mpr habs
    exact abs_le.mp habs'

theorem corr_self (xs : List ℚ) (h : devSum xs xs ≠ 0) : corr xs xs = some 1 := by
  unfold corr
  rw [if_neg (by tauto)]
  have hpos : (0 : ℝ) < (devSum xs xs : ℝ) := by
    exact_mod_cast lt_of_le_of_ne (devSum_self_nonneg xs) (Ne.symm h)
  rw [Real.mul_self_sqrt (le_of_lt hpos), div_self (ne_of_gt hpos)]

theorem correlation_matrix_row (df : DF) (i : Nat)
    (hi : i < (DF.numericCols df).length) :
    (correlation_matrix df).getD i []
      = (DF.numericCols df).map (fun cj =>
          corr ((DF.numericCols df).getD i ("", [])).2 cj.2) := by
  unfold correlation_matrix
  rw [List.getD_eq_getElem?_getD, List.getElem?_map, List.getElem?_eq_getElem hi]
  rw [show (DF.numericCols df).getD i ("", [])
      = (DF.numericCols df)[i] by
    rw [List.getD_eq_getElem?_getD, List.getElem?_eq_getElem hi]; rfl]
  rfl

theorem correlation_matrix_entry (df : DF) (i j : Nat)
    (hi : i < (DF.numericCols df).length) (hj : j < (DF.numericCols df).length) :
    ((correlation_matrix df).getD i []).getD j none
      = corr ((DF.numericCols df).getD i ("", [])).2
          ((DF.numericCols df).getD j ("", [])).2 := by
  rw [correlation_matrix_row df i hi, List.getD_eq_getElem?_getD,
    List.getElem?_map, List.getElem?_eq_getElem hj]
  rw [show (DF.numericCols df).getD j ("", [])
      = (DF.numericCols df)[j] by
    rw [List.getD_eq_getElem?_getD, List.getElem?_eq_getElem hj]; rfl]
  rfl

theorem correlation_matrix_getD_out (df : DF) (i : Nat)
    (hi : (DF.numericCols df).length ≤ i) :
    (correlation_matrix df).getD i [] = [] := by
  unfold correlation_matrix
  rw [List.getD_eq_getElem?_getD, List.getElem?_eq_none]
  · rfl
  · simpa using hi

theorem getD_map_out {α β : Type} (f : α → β) (l : List α) (i : Nat) (d : β)
    (h : l.length ≤ i) : (l.map f).getD i d = d := by
  rw [List.getD_eq_getElem?_getD,
    List.getElem?_eq_none (by rw [List.length_map]; exact h)]
  rfl

theorem correlation_matrix_entry_out (df : DF) (i j : Nat)
    (h : ¬ (i < (DF.numericCols df).length ∧ j < (DF.numericCols df).length)) :
    ((correlation_matrix df).getD i []).getD j none = none := by
  by_cases hi : i < (DF.numericCols df).length
  · have hj : (DF.numericCols df).length ≤ j := by
      rcases not_and_or.mp h with h1 | h1
      · exact absurd hi h1
      · exact le_of_not_lt h1
    rw [correlation_matrix_row df i hi]
    exact getD_map_out _ _ _ none hj
  · rw [correlation_matrix_getD_out df i (le_of_not_lt hi)]
    simp [List.getD]

/-- C6 (amended): for every table, the correlation matrix over the
numeric columns is square and symmetric, every defined entry lies in the
closed interval from minus one to one, and every diagonal entry whose
column has nonzero squared deviation equals one; the entry of any pair
involving a zero-variance (for example constant) column is undefined
(NaN in pandas), so a diagonal entry of a constant column is not one,
see the counterexample. -/
theorem c6_correlation_matrix (df : DF)
    (hwf : ∀ c ∈ DF.numericCols df, ∀ c' ∈ DF.numericCols df,
      c.2.length = c'.2.length) :
    ((correlation_matrix df).length = (DF.numericCols df).length
      ∧ ∀ row ∈ correlation_matrix df, row.length = (DF.numericCols df).length)
    ∧ (∀ i j : Nat, ((correlation_matrix df).getD i []).getD j none
        = ((correlation_matrix df).getD j []).getD i none)
    ∧ (∀ i j : Nat, ∀ r : ℝ,
        ((correlation_matrix df).getD i []).getD j none = some r →
        -1 ≤ r ∧ r ≤ 1)
    ∧ (∀ i : Nat, i < (DF.numericCols df).length →
        devSum ((DF.numericCols df).getD i ("", [])).2
          ((DF.numericCols df).getD i ("", [])).2 ≠ 0 →
        ((correlation_matrix df).getD i []).getD i none = some 1) := by
  have hcd : ∀ i, i < (DF.numericCols df).length →
      (DF.numericCols df).getD i ("", []) ∈ DF.numericCols df := by
    intro i hi
    rw [List.getD_eq_getElem?_getD, List.getElem?_eq_getElem hi]
    exact List.getElem_mem _
  refine ⟨⟨?_, ?_⟩, ?_, ?_, ?_⟩
  · unfold correlation_matrix; rw [List.length_map]
  · intro row hrow
    unfold correlation_matrix at hrow
    rcases List.mem_map.mp hrow with ⟨c, _, rfl⟩
    rw [List.length_map]
  · intro i j
    by_cases hij : i < (DF.numericCols df).length ∧ j < (DF.numericCols df).length
    · rw [correlation_matrix_entry df i j hij.1 hij.2,
        correlation_matrix_entry df j i hij.2 hij.1, corr_comm]
    · rw [correlation_matrix_entry_out df i j hij,
        correlation_matrix_entry_out df j i (fun hc => hij ⟨hc.2, hc.1⟩)]
  · intro i j r hr
    by_cases hij : i < (DF.numericCols df).length ∧ j < (DF.numericCols df).length
    · rw [correlation_matrix_entry df i j hij.1 hij.2] at hr
      have hlen := hwf _ (hcd i hij.1) _ (hcd j hij.2)
      exact corr_mem_Icc _ _ hlen r hr
    · rw [correlation_matrix_entry_out df i j hij] at hr
      cases hr
  · intro i hi hdev
    rw [correlation_matrix_entry df i i hi hi]
    exact corr_self _ hdev

/-- Counterexample to C6 as stated: a table whose numeric columns are a
constant column A and a non-constant column B.  The guard of the
statistical step passes (two numeric columns), yet the diagonal entry of
the constant column is undefined (NaN in pandas), not one. -/
theorem c6_counterexample :
    1 < (DF.numericCols [("A", ColData.num [1, 1]), ("B", ColData.num [1, 2])]).length
    ∧ ((correlation_matrix
          [("A", ColData.num [1, 1]), ("B", ColData.num [1, 2])]).getD 0 []).getD 0 none
        = none
    ∧ ((correlation_matrix
          [("A", ColData.num [1, 1]), ("B", ColData.num [1, 2])]).getD 0 []).getD 0 none
        ≠ some (1 : ℝ) := by
  have hds : devSum [(1 : ℚ), 1] [(1 : ℚ), 1] = 0 := by
    norm_num [devSum, meanQ, List.zip_cons_cons]
  have hentry : ((correlation_matrix
      [("A", ColData.num [1, 1]), ("B", ColData.num [1, 2])]).getD 0 []).getD 0 none
      = none := by
    rw [correlation_matrix_entry _ 0 0 (by decide) (by decide)]
    rw [show (DF.numericCols
        [("A", ColData.num [1, 1]), ("B", ColData.num [1, 2])]).getD 0 ("", [])
      = ("A", [(1 : ℚ), 1]) from rfl]
    unfold corr
    rw [if_pos (Or.inl hds)]
  exact ⟨by decide, hentry, by rw [hentry]; simp⟩

theorem c6_correlation_matrix_witness :
    (∀ c ∈ DF.numericCols [("X", ColData.num [0, 1]), ("Y", ColData.num [0, 1])],
      ∀ c' ∈ DF.numericCols [("X", ColData.num [0, 1]), ("Y", ColData.num [0, 1])],
        c.2.length = c'.2.length)
    ∧ ((correlation_matrix
          [("X", ColData.num [0, 1]), ("Y", ColData.num [0, 1])]).getD 0 []).getD 0 none
        = some 1 :=
  ⟨by decide,
    (c6_correlation_matrix
      [("X", ColData.num [0, 1]), ("Y", ColData.num [0, 1])] (by decide)).2.2.2
      0 (by decide)
      (by
        rw [show (DF.numericCols
            [("X", ColData.num [0, 1]), ("Y", ColData.num [0, 1])]).getD 0 ("", [])
          = ("X", [(0 : ℚ), 1]) from rfl]
        norm_num [devSum, meanQ, List.zip_cons_cons])⟩

theorem find?_eq_none_of_not_mem (df : DF) (c : String)
    (h : c ∉ DF.columns df) :
    df.find? (fun p => decide (p.1 = c)) = none := by
  rw [List.find?_eq_none]
  intro p hp
  simp only [decide_eq_true_eq]
  intro hc
  exact h (hc ▸ List.mem_map_of_mem (·.1) hp)

theorem getDates_eq_none (df : DF) (c : String) (h : c ∉ DF.columns df) :
    DF.getDates df c = none := by
  unfold DF.getDates
  rw [find?_eq_none_of_not_mem df c h]

/-- Calendar date, year and month and day, of a day count relative to
1970-01-01: the era-based civil-from-days conversion that the datetime
library applies when the year, month and day fields of a timestamp are
read. -/
def civilFromDays (z0 : Int) : Int × Int × Int :=
  let z := z0 + 719468
  let era := z.ediv 146097
  let doe := z - era * 146097
  let yoe := (doe - doe.ediv 1460 + doe.ediv 36524 - doe.ediv 146096).ediv 365
  let y := yoe + era * 400
  let doy := doe - (365 * yoe + yoe.ediv 4 - yoe.ediv 100)
  let mp := (5 * doy + 2).ediv 153
  let d := doy - (153 * mp + 2).ediv 5 + 1
  let m := mp + (if mp < 10 then 3 else -9)
  (y + (if m ≤ 2 then 1 else 0), m, d)

/-- Day count relative to 1970-01-01 of a calendar date: the inverse
era-based days-from-civil conversion. -/
def daysFromCivil (y m d : Int) : Int :=
  let y' := y - (if m ≤ 2 then 1 else 0)
  let era := y'.ediv 400
  let yoe := y' - era * 400
  let doy := (153 * (m + (if 2 < m then -3 else 9)) + 2).ediv 5 + d - 1
  let doe := yoe * 365 + yoe.ediv 4 - yoe.ediv 100 + doy
  era * 146097 + doe - 719468

/-- Day of week of a day count, Monday as zero: 1970-01-01 was a
Thursday, day of week three. -/
def dayOfWeekFromDays (z : Int) : Int := (z + 3).emod 7

/-- Loader.  After reading the table, when the InvoiceDate column is
present it is parsed to timestamps and the four calendar columns Year,
Month, Day and DayOfWeek are appended as numeric columns derived from
it (lines 25 to 30); otherwise the table is returned unchanged.  An
unparseable (empty) cell parses to a missing timestamp, NaT, and every
calendar accessor maps NaT to a missing numeric entry, NaN, so with a
missing timestamp present the derived columns are numeric columns with
missing entries (float dtype); with every timestamp present they are
plain integer columns. -/
def load_data (df : DF) : DF :=
  match DF.getDates df "InvoiceDate" with
  | some ds =>
      if ds.all Option.isSome then
        df ++ [("Year", ColData.num
                  ((ds.filterMap id).map (fun z => ((civilFromDays z).1 : ℚ)))),
               ("Month", ColData.num
                  ((ds.filterMap id).map (fun z => ((civilFromDays z).2.1 : ℚ)))),
               ("Day", ColData.num
                  ((ds.filterMap id).map (fun z => ((civilFromDays z).2.2 : ℚ)))),
               ("DayOfWeek", ColData.num
                  ((ds.filterMap id).map (fun z => ((dayOfWeekFromDays z : ℤ) : ℚ))))]
      else
        df ++ [("Year", ColData.numOpt
                  (ds.map (Option.map (fun z => ((civilFromDays z).1 : ℚ))))),
               ("Month", ColData.numOpt
                  (ds.map (Option.map (fun z => ((civilFromDays z).2.1 : ℚ))))),
               ("Day", ColData.numOpt
                  (ds.map (Option.map (fun z => ((civilFromDays z).2.2 : ℚ))))),
               ("DayOfWeek", ColData.numOpt
                  (ds.map (Option.map (fun z => ((dayOfWeekFromDays z : ℤ) : ℚ)))))]
  | none => df

set_option maxHeartbeats 2000000 in
theorem doy_bounds (doe yoe doy : Int)
    (h0 : 0 ≤ doe) (h1 : doe < 146097)
    (hyoe : yoe = (doe - doe.ediv 1460 + doe.ediv 36524 - doe.ediv 146096).ediv 365)
    (hdoy : doy = doe - (365 * yoe + yoe.ediv 4 - yoe.ediv 100)) :
    (0 ≤ yoe ∧ yoe ≤ 399) ∧ (0 ≤ doy ∧ doy ≤ 365) := by
  have e1 : 1460 * (doe.ediv 1460) + doe.emod 1460 = doe := Int.ediv_add_emod doe 1460
  have e1b : 0 ≤ doe.emod 1460 := Int.emod_nonneg doe (by norm_num)
  have e1c : doe.emod 1460 < 1460 := Int.emod_lt_of_pos doe (by norm_num)
  have e2 : 36524 * (doe.ediv 36524) + doe.emod 36524 = doe := Int.ediv_add_emod doe 36524
  have e2b : 0 ≤ doe.emod 36524 := Int.emod_nonneg doe (by norm_num)
  have e2c : doe.emod 36524 < 36524 := Int.emod_lt_of_pos doe (by norm_num)
  have e3 : 146096 * (doe.ediv 146096) + doe.emod 146096 = doe := Int.ediv_add_emod doe 146096
  have e3b : 0 ≤ doe.emod 146096 := Int.emod_nonneg doe (by norm_num)
  have e3c : doe.emod 146096 < 146096 := Int.emod_lt_of_pos doe (by norm_num)
  set n := doe - doe.ediv 1460 + doe.ediv 36524 - doe.ediv 146096 with hn
  have e4 : 365 * (n.ediv 365) + n.emod 365 = n := Int.ediv_add_emod n 365
  have e4b : 0 ≤ n.emod 365 := Int.emod_nonneg n (by norm_num)
  have e4c : n.emod 365 < 365 := Int.emod_lt_of_pos n (by norm_num)
  have e5 : 4 * (yoe.ediv 4) + yoe.emod 4 = yoe := Int.ediv_add_emod yoe 4
  have e5b : 0 ≤ yoe.emod 4 := Int.emod_nonneg yoe (by norm_num)
  have e5c : yoe.emod 4 < 4 := Int.emod_lt_of_pos yoe (by norm_num)
  have e6 : 100 * (yoe.ediv 100) + yoe.emod 100 = yoe := Int.ediv_add_emod yoe 100
  have e6b : 0 ≤ yoe.emod 100 := Int.emod_nonneg yoe (by norm_num)
  have e6c : yoe.emod 100 < 100 := Int.emod_lt_of_pos yoe (by norm_num)
  have e7 : 4 * ((yoe.emod 100).ediv 4) + (yoe.emod 100).emod 4 = yoe.emod 100 :=
    Int.ediv_add_emod _ 4
  have e7b : 0 ≤ (yoe.emod 100).emod 4 := Int.emod_nonneg _ (by norm_num)
  have e7c : (yoe.emod 100).emod 4 < 4 := Int.emod_lt_of_pos _ (by norm_num)
  have bridge1 : yoe.ediv 4 = 25 * (yoe.ediv 100) + (yoe.emod 100).ediv 4 := by omega
  have hyb : 0 ≤ yoe ∧ yoe ≤ 399 := by omega
  have ha1 : 0 ≤ yoe.ediv 100 := by omega
  have ha2 : yoe.ediv 100 ≤ 3 := by omega
  have hb1 : 0 ≤ doe.ediv 36524 := by omega
  have hb2 : doe.ediv 36524 ≤ 4 := by omega
  have hc1 : 0 ≤ doe.ediv 146096 := by omega
  have hc2 : doe.ediv 146096 ≤ 1 := by omega
  set va := yoe.ediv 100 with hva
  set vb := doe.ediv 36524 with hvb
  set vc := doe.ediv 146096 with hvc
  clear_value va vb vc
  refine ⟨by omega, ?_⟩
  interval_cases va <;> interval_cases vb <;> interval_cases vc <;> omega

set_option maxHeartbeats 1000000 in
theorem civil_core (doe yoe doy mp d : Int)
    (h0 : 0 ≤ doe) (h1 : doe < 146097)
    (hyoe : yoe = (doe - doe.ediv 1460 + doe.ediv 36524 - doe.ediv 146096).ediv 365)
    (hdoy : doy = doe - (365 * yoe + yoe.ediv 4 - yoe.ediv 100))
    (hmp : mp = (5 * doy + 2).ediv 153)
    (hd : d = doy - (153 * mp + 2).ediv 5 + 1) :
    (0 ≤ yoe ∧ yoe ≤ 399) ∧ (0 ≤ doy ∧ doy ≤ 365) ∧ (0 ≤ mp ∧ mp ≤ 11)
    ∧ ((153 * mp + 2).ediv 5 + d - 1 = doy)
    ∧ (yoe * 365 + yoe.ediv 4 - yoe.ediv 100 + doy = doe)
    ∧ (1 ≤ d ∧ d ≤ 31) := by
  rcases doy_bounds doe yoe doy h0 h1 hyoe hdoy with ⟨hy, hdoyb⟩
  have e1 : 1460 * (doe.ediv 1460) + doe.emod 1460 = doe := Int.ediv_add_emod doe 1460
  have e1b : 0 ≤ doe.emod 1460 := Int.emod_nonneg doe (by norm_num)
  have e1c : doe.emod 1460 < 1460 := Int.emod_lt_of_pos doe (by norm_num)
  have e2 : 36524 * (doe.ediv 36524) + doe.emod 36524 = doe := Int.ediv_add_emod doe 36524
  have e2b : 0 ≤ doe.emod 36524 := Int.emod_nonneg doe (by norm_num)
  have e2c : doe.emod 36524 < 36524 := Int.emod_lt_of_pos doe (by norm_num)
  have e3 : 146096 * (doe.ediv 146096) + doe.emod 146096 = doe := Int.ediv_add_emod doe 146096
  have e3b : 0 ≤ doe.emod 146096 := Int.emod_nonneg doe (by norm_num)
  have e3c : doe.emod 146096 < 146096 := Int.emod_lt_of_pos doe (by norm_num)
  set n := doe - doe.ediv 1460 + doe.ediv 36524 - doe.ediv 146096 with hn
  have e4 : 365 * (n.ediv 365) + n.emod 365 = n := Int.ediv_add_emod n 365
  have e4b : 0 ≤ n.emod 365 := Int.emod_nonneg n (by norm_num)
  have e4c : n.emod 365 < 365 := Int.emod_lt_of_pos n (by norm_num)
  have e5 : 4 * (yoe.ediv 4) + yoe.emod 4 = yoe := Int.ediv_add_emod yoe 4
  have e5b : 0 ≤ yoe.emod 4 := Int.emod_nonneg yoe (by norm_num)
  have e5c : yoe.emod 4 < 4 := Int.emod_lt_of_pos yoe (by norm_num)
  have e6 : 100 * (yoe.ediv 100) + yoe.emod 100 = yoe := Int.ediv_add_emod yoe 100
  have e6b : 0 ≤ yoe.emod 100 := Int.emod_nonneg yoe (by norm_num)
  have e6c : yoe.emod 100 < 100 := Int.emod_lt_of_pos yoe (by norm_num)
  have e7 : 153 * ((5 * doy + 2).ediv 153) + (5 * doy + 2).emod 153 = 5 * doy + 2 :=
    Int.ediv_add_emod _ 153
  have e7b : 0 ≤ (5 * doy + 2).emod 153 := Int.emod_nonneg _ (by norm_num)
  have e7c : (5 * doy + 2).emod 153 < 153 := Int.emod_lt_of_pos _ (by norm_num)
  have e8 : 5 * ((153 * mp + 2).ediv 5) + (153 * mp + 2).emod 5 = 153 * mp + 2 :=
    Int.ediv_add_emod _ 5
  have e8b : 0 ≤ (153 * mp + 2).emod 5 := Int.emod_nonneg _ (by norm_num)
  have e8c : (153 * mp + 2).emod 5 < 5 := Int.emod_lt_of_pos _ (by norm_num)
  have hmpb : 0 ≤ mp ∧ mp ≤ 11 := by omega
  have hrec : (153 * mp + 2).ediv 5 + d - 1 = doy := by omega
  have hdb : 1 ≤ d ∧ d ≤ 31 := by omega
  exact ⟨hy, hdoyb, hmpb, hrec, by omega, hdb⟩

set_option maxHeartbeats 1000000 in
theorem roundtrip_core
    (z z' era doe yoe doy mp d m Y : Int)
    (hz' : z' = z + 719468)
    (hera : era = z'.ediv 146097)
    (hdoe : doe = z' - era * 146097)
    (hyoe : yoe = (doe - doe.ediv 1460 + doe.ediv 36524 - doe.ediv 146096).ediv 365)
    (hdoy : doy = doe - (365 * yoe + yoe.ediv 4 - yoe.ediv 100))
    (hmp : mp = (5 * doy + 2).ediv 153)
    (hd : d = doy - (153 * mp + 2).ediv 5 + 1)
    (hm : m = mp + (if mp < 10 then 3 else -9))
    (hY : Y = yoe + era * 400 + (if m ≤ 2 then 1 else 0)) :
    daysFromCivil Y m d = z ∧ 1 ≤ m ∧ m ≤ 12 ∧ 1 ≤ d ∧ d ≤ 31 := by
  have hee : 146097 * (z'.ediv 146097) + z'.emod 146097 = z' := Int.ediv_add_emod z' 146097
  have heb : 0 ≤ z'.emod 146097 := Int.emod_nonneg z' (by norm_num)
  have hec : z'.emod 146097 < 146097 := Int.emod_lt_of_pos z' (by norm_num)
  have h0 : 0 ≤ doe := by omega
  have h1 : doe < 146097 := by omega
  rcases civil_core doe yoe doy mp d h0 h1 hyoe hdoy hmp hd with
    ⟨hyb, hdoyb, hmpb, hrec, hrecon, hdb⟩
  have hY400 : 400 * ((yoe + era * 400).ediv 400) + (yoe + era * 400).emod 400
      = yoe + era * 400 := Int.ediv_add_emod _ 400
  have hY400b : 0 ≤ (yoe + era * 400).emod 400 := Int.emod_nonneg _ (by norm_num)
  have hY400c : (yoe + era * 400).emod 400 < 400 := Int.emod_lt_of_pos _ (by norm_num)
  by_cases h10 : mp < 10
  · rw [if_pos h10] at hm
    have h2 : ¬ (m ≤ 2) := by omega
    rw [if_neg h2] at hY
    unfold daysFromCivil
    dsimp only
    rw [if_neg h2, if_pos (by omega : 2 < m)]
    have hback : 5 * ((153 * (m + -3) + 2).ediv 5) + (153 * (m + -3) + 2).emod 5
        = 153 * (m + -3) + 2 := Int.ediv_add_emod _ 5
    have hbackb : 0 ≤ (153 * (m + -3) + 2).emod 5 := Int.emod_nonneg _ (by norm_num)
    have hbackc : (153 * (m + -3) + 2).emod 5 < 5 := Int.emod_lt_of_pos _ (by norm_num)
    have e8 : 5 * ((153 * mp + 2).ediv 5) + (153 * mp + 2).emod 5 = 153 * mp + 2 :=
      Int.ediv_add_emod _ 5
    have e8b : 0 ≤ (153 * mp + 2).emod 5 := Int.emod_nonneg _ (by norm_num)
    have e8c : (153 * mp + 2).emod 5 < 5 := Int.emod_lt_of_pos _ (by norm_num)
    have hcj : (153 * (m + -3) + 2).ediv 5 = (153 * mp + 2).ediv 5 := by omega
    rw [hcj]
    have hYe : Y - 0 = yoe + era * 400 := by omega
    rw [hYe]
    have hyoeq : yoe + era * 400 - (yoe + era * 400).ediv 400 * 400 = yoe := by omega
    rw [hyoeq]
    exact ⟨by omega, by omega, by omega, hdb.1, hdb.2⟩
  · rw [if_neg h10] at hm
    have h2 : m ≤ 2 := by omega
    rw [if_pos h2] at hY
    unfold daysFromCivil
    dsimp only
    rw [if_pos h2, if_neg (by omega : ¬ (2 < m))]
    have hback : 5 * ((153 * (m + 9) + 2).ediv 5) + (153 * (m + 9) + 2).emod 5
        = 153 * (m + 9) + 2 := Int.ediv_add_emod _ 5
    have hbackb : 0 ≤ (153 * (m + 9) + 2).emod 5 := Int.emod_nonneg _ (by norm_num)
    have hbackc : (153 * (m + 9) + 2).emod 5 < 5 := Int.emod_lt_of_pos _ (by norm_num)
    have e8 : 5 * ((153 * mp + 2).ediv 5) + (153 * mp + 2).emod 5 = 153 * mp + 2 :=
      Int.ediv_add_emod _ 5
    have e8b : 0 ≤ (153 * mp + 2).emod 5 := Int.emod_nonneg _ (by norm_num)
    have e8c : (153 * mp + 2).emod 5 < 5 := Int.emod_lt_of_pos _ (by norm_num)
    have hcj : (153 * (m + 9) + 2).ediv 5 = (153 * mp + 2).ediv 5 := by omega
    rw [hcj]
    have hYe : Y - 1 = yoe + era * 400 := by omega
    rw [hYe]
    have hyoeq : yoe + era * 400 - (yoe + era * 400).ediv 400 * 400 = yoe := by omega
    rw [hyoeq]
    exact ⟨by omega, by omega, by omega, hdb.1, hdb.2⟩

/-- C8: for every timestamp value, the derived year, month, day and day
of week fields are internally consistent with the parsed timestamp:
reconstructing a day count from the year, month and day fields
reproduces the day the timestamp denotes, the month and day fields lie
in their calendar ranges, and the day of week derived from the
reconstructed day count agrees with the one derived from the original
timestamp. -/
theorem c8_calendar_roundtrip (z : Int) :
    daysFromCivil (civilFromDays z).1 (civilFromDays z).2.1 (civilFromDays z).2.2 = z
    ∧ 1 ≤ (civilFromDays z).2.1 ∧ (civilFromDays z).2.1 ≤ 12
    ∧ 1 ≤ (civilFromDays z).2.2 ∧ (civilFromDays z).2.2 ≤ 31
    ∧ dayOfWeekFromDays
        (daysFromCivil (civilFromDays z).1 (civilFromDays z).2.1 (civilFromDays z).2.2)
      = dayOfWeekFromDays z := by
  have h := roundtrip_core z _ _ _ _ _ _ _ _ _ rfl rfl rfl rfl rfl rfl rfl rfl rfl
  exact ⟨h.1, h.2.1, h.2.2.1, h.2.2.2.1, h.2.2.2.2, congrArg dayOfWeekFromDays h.1⟩

/-- C7: the four derived calendar columns are present in the loaded
table exactly when the timestamp column exists in the input, and when it
is absent the derivation is skipped silently and the table is returned
unchanged. -/
theorem c7_calendar_columns_iff (df : DF)
    (htyped : "InvoiceDate" ∈ DF.columns df →
      ∃ ds, DF.getDates df "InvoiceDate" = some ds)
    (hfresh : "Year" ∉ DF.columns df ∧ "Month" ∉ DF.columns df
      ∧ "Day" ∉ DF.columns df ∧ "DayOfWeek" ∉ DF.columns df) :
    (("Year" ∈ DF.columns (load_data df) ∧ "Month" ∈ DF.columns (load_data df)
      ∧ "Day" ∈ DF.columns (load_data df) ∧ "DayOfWeek" ∈ DF.columns (load_data df))
      ↔ "InvoiceDate" ∈ DF.columns df)
    ∧ ("InvoiceDate" ∉ DF.columns df → load_data df = df) := by
  have hnone : "InvoiceDate" ∉ DF.columns df → load_data df = df := by
    intro h
    unfold load_data
    rw [getDates_eq_none df _ h]
  refine ⟨⟨?_, ?_⟩, hnone⟩
  · intro hcols
    by_contra h
    rw [hnone h] at hcols
    exact hfresh.1 hcols.1
  · intro hmem
    rcases htyped hmem with ⟨ds, hds⟩
    unfold load_data
    simp only [hds]
    by_cases hall : ds.all Option.isSome = true
    · rw [if_pos hall]
      unfold DF.columns
      rw [List.map_append]
      refine ⟨?_, ?_, ?_, ?_⟩ <;> (apply List.mem_append_right; simp)
    · rw [if_neg hall]
      unfold DF.columns
      rw [List.map_append]
      refine ⟨?_, ?_, ?_, ?_⟩ <;> (apply List.mem_append_right; simp)

theorem c7_calendar_columns_iff_witness :
    ("Year" ∈ DF.columns (load_data [("InvoiceDate", ColData.dates [some 0])]))
    ∧ load_data [("X", ColData.num [1])] = [("X", ColData.num [1])] :=
  ⟨((c7_calendar_columns_iff [("InvoiceDate", ColData.dates [some 0])]
      (fun _ => ⟨[some 0], rfl⟩) (by decide)).1.mpr (by decide)).1,
    (c7_calendar_columns_iff [("X", ColData.num [1])]
      (fun h => absurd h (by decide)) (by decide)).2 (by decide)⟩

/-- Chart files written by a full report run, with the error message of
the step that aborted the run, if any.  The basic statistics section
only prints and cannot raise.  The sales chart is written only when the
monthly series is non-empty, because plotting an empty series raises
before the file is saved; the customer histogram is written whenever
CustomerID and TotalAmount are both columns, since a histogram accepts
an empty input; the revenue chart is written only when the per-product
table is non-empty; the heatmap is written whenever at least two numeric
columns exist.  A raise aborts all later steps (lines 153 to 168). -/
noncomputable def generate_report (df : DF) : List String × Option String :=
  match sales_trends_analysis df with
  | StepResult.failed msg => ([], some msg)
  | r1 =>
    let c1 := match r1 with
      | StepResult.ok _ => ["results/monthly_sales_trend.png"]
      | _ => []
    match customer_behavior_analysis df with
    | StepResult.failed msg => (c1, some msg)
    | r2 =>
      let c2 := match r2 with
        | StepResult.ok out => match out.spending with
          | some _ => ["results/customer_spending_dist.png"]
          | none => []
        | _ => []
      match revenue_driver_analysis df with
      | StepResult.failed msg => (c1 ++ c2, some msg)
      | r3 =>
        let c3 := match r3 with
          | StepResult.ok _ => ["results/top_products_revenue.png"]
          | _ => []
        let c4 := match statistical_analysis df with
          | StepResult.ok _ => ["results/correlation_matrix.png"]
          | _ => []
        (c1 ++ c2 ++ c3 ++ c4, none)

/-- C3: the specification requires that a table with zero rows does not
terminate the run, but the code does crash there.  On an empty table
whose columns include the monetary column and the derived month column,
the sales step passes its column guard, builds an empty monthly series,
and the plotting call and idxmax both raise on it, aborting the whole
run before any chart is written.  This theorem evaluates the model at
that failing input: the run aborts with an error and writes nothing. -/
theorem c3_empty_table_run_fails :
    ("TotalAmount" ∈ DF.columns (load_data
        [("InvoiceDate", ColData.dates []), ("CustomerID", ColData.str []),
         ("Product", ColData.str []), ("TotalAmount", ColData.num [])])
      ∧ "Month" ∈ DF.columns (load_data
        [("InvoiceDate", ColData.dates []), ("CustomerID", ColData.str []),
         ("Product", ColData.str []), ("TotalAmount", ColData.num [])]))
    ∧ generate_report (load_data
        [("InvoiceDate", ColData.dates []), ("CustomerID", ColData.str []),
         ("Product", ColData.str []), ("TotalAmount", ColData.num [])])
      = ([], some "no numeric data to plot") :=
  ⟨⟨by decide, by decide⟩, rfl⟩

theorem getNum_append_left (df sfx : DF) (c : String) (vs : List ℚ)
    (h : DF.getNum df c = some vs) : DF.getNum (df ++ sfx) c = some vs := by
  unfold DF.getNum at h ⊢
  rw [List.find?_append]
  cases hf : df.find? (fun p => decide (p.1 = c)) with
  | none => rw [hf] at h; cases h
  | some p =>
    rw [hf] at h
    cases p with
    | mk s cd =>
      cases cd with
      | num vs' => simpa using h
      | numOpt vs' => cases h
      | str vs' => cases h
      | dates vs' => cases h

theorem getStr_append_left (df sfx : DF) (c : String) (vs : List (Option String))
    (h : DF.getStr df c = some vs) : DF.getStr (df ++ sfx) c = some vs := by
  unfold DF.getStr at h ⊢
  rw [List.find?_append]
  cases hf : df.find? (fun p => decide (p.1 = c)) with
  | none => rw [hf] at h; cases h
  | some p =>
    rw [hf] at h
    cases p with
    | mk s cd =>
      cases cd with
      | num vs' => cases h
      | numOpt vs' => cases h
      | str vs' => simpa using h
      | dates vs' => cases h

theorem monthly_sales_ne_nil (rows : List (ℚ × ℚ)) (h : rows ≠ []) :
    monthly_sales rows ≠ [] := by
  unfold monthly_sales
  intro hc
  apply h
  have h1 : sortAsc (rows.map (·.1)).dedup = [] := List.map_eq_nil_iff.mp hc
  have hp := List.perm_insertionSort (· ≤ ·) (rows.map (·.1)).dedup
  rw [show sortAsc (rows.map (·.1)).dedup
      = (rows.map (·.1)).dedup.insertionSort (· ≤ ·) from rfl] at h1
  rw [h1] at hp
  have h2 : (rows.map (·.1)).dedup = [] := hp.symm.eq_nil
  have h3 : rows.map (·.1) = [] := (List.dedup_eq_nil _).mp h2
  exact List.map_eq_nil_iff.mp h3

theorem product_revenue_ne_nil (rows : List (Option String × ℚ))
    (h : ∃ k q, (some k, q) ∈ rows) : product_revenue rows ≠ [] := by
  rcases h with ⟨k, q, hkq⟩
  unfold product_revenue
  intro hc
  have hp := List.perm_insertionSort (fun a b : String × ℚ => b.2 ≤ a.2)
    (((dropNullKeys rows).map (·.1)).dedup.map
      (fun x => (x, keyedSum (dropNullKeys rows) x)))
  rw [hc] at hp
  have h2 := hp.symm.eq_nil
  have h3 : ((dropNullKeys rows).map (·.1)).dedup = [] := List.map_eq_nil_iff.mp h2
  have h4 : (dropNullKeys rows).map (·.1) = [] := (List.dedup_eq_nil _).mp h3
  have h5 : dropNullKeys rows = [] := List.map_eq_nil_iff.mp h4
  have hmem : (k, q) ∈ dropNullKeys rows := by
    unfold dropNullKeys
    rw [List.mem_filterMap]
    exact ⟨(some k, q), hkq, rfl⟩
  rw [h5] at hmem
  cases hmem

theorem filterMap_id_length_of_full {α : Type} (l : List (Option α))
    (h : ∀ d ∈ l, d ≠ none) : (l.filterMap id).length = l.length := by
  induction l with
  | nil => rfl
  | cons d ds ih =>
    cases d with
    | none => exact absurd rfl (h none (List.mem_cons_self _ _))
    | some v =>
      have h' : ∀ d ∈ ds, d ≠ none := fun d hd => h d (List.mem_cons_of_mem _ hd)
      show (v :: ds.filterMap id).length = ds.length + 1
      rw [List.length_cons, ih h']

theorem dropNullKeys_map_some {κ : Type} (xs : List κ) (ys : List ℚ) :
    dropNullKeys ((xs.map some).zip ys) = xs.zip ys := by
  induction xs generalizing ys with
  | nil => rfl
  | cons x xs ih =>
    cases ys with
    | nil => rfl
    | cons y ys =>
      show (x, y) :: dropNullKeys ((xs.map some).zip ys) = (x, y) :: xs.zip ys
      rw [ih]

theorem generate_report_four_charts (df : DF) (ds : List (Option Int))
    (cs ids : List (Option String)) (amounts : List ℚ)
    (hdates : DF.getDates df "InvoiceDate" = some ds)
    (hcs : DF.getStr df "CustomerID" = some cs)
    (hids : DF.getStr df "Product" = some ids)
    (hamt : DF.getNum df "TotalAmount" = some amounts)
    (hfresh : "Month" ∉ DF.columns df)
    (hvalid : ∀ d ∈ ds, d ≠ none)
    (hrows : ds ≠ [])
    (hlen : ds.length = amounts.length)
    (hprod : ∃ k q, (some k, q) ∈ ids.zip amounts) :
    generate_report (load_data df)
      = (["results/monthly_sales_trend.png", "results/customer_spending_dist.png",
          "results/top_products_revenue.png", "results/correlation_matrix.png"],
         none) := by
  have hall : ds.all Option.isSome = true := by
    rw [List.all_eq_true]
    intro d hd
    exact Option.isSome_iff_ne_none.mpr (hvalid d hd)
  have hload : load_data df
      = df ++ [("Year", ColData.num
                  ((ds.filterMap id).map (fun z => ((civilFromDays z).1 : ℚ)))),
               ("Month", ColData.num
                  ((ds.filterMap id).map (fun z => ((civilFromDays z).2.1 : ℚ)))),
               ("Day", ColData.num
                  ((ds.filterMap id).map (fun z => ((civilFromDays z).2.2 : ℚ)))),
               ("DayOfWeek", ColData.num
                  ((ds.filterMap id).map (fun z => ((dayOfWeekFromDays z : ℤ) : ℚ))))] := by
    unfold load_data
    simp only [hdates]
    rw [if_pos hall]
  rw [hload]
  set sfx : DF :=
      [("Year", ColData.num
          ((ds.filterMap id).map (fun z => ((civilFromDays z).1 : ℚ)))),
       ("Month", ColData.num
          ((ds.filterMap id).map (fun z => ((civilFromDays z).2.1 : ℚ)))),
       ("Day", ColData.num
          ((ds.filterMap id).map (fun z => ((civilFromDays z).2.2 : ℚ)))),
       ("DayOfWeek", ColData.num
          ((ds.filterMap id).map (fun z => ((dayOfWeekFromDays z : ℤ) : ℚ))))]
    with hsfx
  set ms : List ℚ := (ds.filterMap id).map (fun z => ((civilFromDays z).2.1 : ℚ))
    with hms
  have hTA : DF.getNum (df ++ sfx) "TotalAmount" = some amounts :=
    getNum_append_left df sfx _ _ hamt
  have hMo : DF.getNumNa (df ++ sfx) "Month" = some (ms.map some) := by
    unfold DF.getNumNa
    rw [List.find?_append, find?_eq_none_of_not_mem df _ hfresh]
    rfl
  have hCu : DF.getStr (df ++ sfx) "CustomerID" = some cs :=
    getStr_append_left df sfx _ _ hcs
  have hPr : DF.getStr (df ++ sfx) "Product" = some ids :=
    getStr_append_left df sfx _ _ hids
  have hdpos : 0 < ds.length := List.length_pos.mpr hrows
  have hmslen : ms.length = ds.length := by
    rw [hms, List.length_map, filterMap_id_length_of_full ds hvalid]
  have hzne : (ms.zip amounts) ≠ [] := by
    intro hc
    have hlc := congrArg List.length hc
    rw [List.length_zip, hmslen, List.length_nil] at hlc
    omega
  have hsne : monthly_sales (ms.zip amounts) ≠ [] :=
    monthly_sales_ne_nil _ hzne
  rcases List.exists_cons_of_ne_nil hsne with ⟨p, ps, hcons⟩
  have hsales : sales_trends_analysis (df ++ sfx)
      = StepResult.ok ⟨p :: ps, ps.foldl pickMax p, ps.foldl pickMin p⟩ := by
    unfold sales_trends_analysis
    simp only [hTA, hMo]
    rw [dropNullKeys_map_some ms amounts, hcons]
    rfl
  have hcust : customer_behavior_analysis (df ++ sfx)
      = StepResult.ok
          ⟨value_counts cs, nunique cs, some (customer_spending (cs.zip amounts))⟩ := by
    unfold customer_behavior_analysis
    simp only [hCu, hTA]
  have hrne : product_revenue (ids.zip amounts) ≠ [] :=
    product_revenue_ne_nil _ hprod
  rcases List.exists_cons_of_ne_nil hrne with ⟨rp, rps, hrcons⟩
  have hrev : revenue_driver_analysis (df ++ sfx)
      = StepResult.ok ⟨rp :: rps, top_20_pct ((rp :: rps).map (·.2))⟩ := by
    unfold revenue_driver_analysis
    simp only [hPr, hTA]
    rw [hrcons]
  have hnum : 1 < (DF.numericCols (df ++ sfx)).length := by
    unfold DF.numericCols
    rw [List.filterMap_append, List.length_append]
    have h4 : (sfx.filterMap (fun p => match p.2 with
        | ColData.num vs => some (p.1, vs)
        | _ => none)).length = 4 := rfl
    omega
  have hstat : statistical_analysis (df ++ sfx)
      = StepResult.ok (correlation_matrix (df ++ sfx)) := by
    unfold statistical_analysis
    rw [if_pos hnum]
  unfold generate_report
  simp only [hsales, hcust, hrev, hstat]
  rfl

/-- With every timestamp missing (each InvoiceDate cell unparseable),
the derived month column is entirely missing, the groupby drops every
row, the sales plot raises on the empty series, and the run aborts with
no file written: a table can carry all the optional columns and a row
yet produce zero images, so the corrected C9 requires every timestamp
to be present. -/
theorem generate_report_all_missing_dates :
    generate_report (load_data
        [("InvoiceDate", ColData.dates [none]),
         ("CustomerID", ColData.str [some "A"]),
         ("Product", ColData.str [some "P"]),
         ("TotalAmount", ColData.num [10])])
      = ([], some "no numeric data to plot") := rfl

/-- C9 (corrected): a full run on a table containing all the optional
columns, at least one row, no missing timestamp, and at least one
non-missing product writes exactly FOUR image files with fixed
filenames: the source contains four savefig calls, at lines 62, 98, 121
and 148, although the specification says five while itself listing only
four names.  The proviso on timestamps is needed: with every timestamp
missing the sales step raises on an empty series and no file is
written. -/
theorem c9_exactly_four_images (df : DF) (ds : List (Option Int))
    (cs ids : List (Option String)) (amounts : List ℚ)
    (hdates : DF.getDates df "InvoiceDate" = some ds)
    (hcs : DF.getStr df "CustomerID" = some cs)
    (hids : DF.getStr df "Product" = some ids)
    (hamt : DF.getNum df "TotalAmount" = some amounts)
    (hfresh : "Month" ∉ DF.columns df)
    (hvalid : ∀ d ∈ ds, d ≠ none)
    (hrows : ds ≠ [])
    (hlen : ds.length = amounts.length)
    (hprod : ∃ k q, (some k, q) ∈ ids.zip amounts) :
    (generate_report (load_data df)).1
      = ["results/monthly_sales_trend.png", "results/customer_spending_dist.png",
         "results/top_products_revenue.png", "results/correlation_matrix.png"]
    ∧ (generate_report (load_data df)).1.length = 4 := by
  rw [generate_report_four_charts df ds cs ids amounts hdates hcs hids hamt hfresh
    hvalid hrows hlen hprod]
  exact ⟨rfl, rfl⟩

theorem c9_exactly_four_images_witness :
    (DF.getDates
        [("InvoiceDate", ColData.dates [some 0, some 31]),
         ("CustomerID", ColData.str [some "A", some "B"]),
         ("Product", ColData.str [some "P", some "Q"]),
         ("TotalAmount", ColData.num [10, 20])] "InvoiceDate"
      = some [some 0, some 31])
    ∧ (generate_report (load_data
        [("InvoiceDate", ColData.dates [some 0, some 31]),
         ("CustomerID", ColData.str [some "A", some "B"]),
         ("Product", ColData.str [some "P", some "Q"]),
         ("TotalAmount", ColData.num [10, 20])])).1.length = 4 :=
  ⟨rfl,
    (c9_exactly_four_images
      [("InvoiceDate", ColData.dates [some 0, some 31]),
       ("CustomerID", ColData.str [some "A", some "B"]),
       ("Product", ColData.str [some "P", some "Q"]),
       ("TotalAmount", ColData.num [10, 20])]
      [some 0, some 31] [some "A", some "B"] [some "P", some "Q"]
      [10, 20] rfl rfl rfl rfl (by decide) (by decide) (by decide) (by decide)
      ⟨"P", 10, by simp [List.zip_cons_cons]⟩).2⟩

/-- Counterexample to C9 as stated: on a complete table with every
optional column, two rows and both timestamps present, the run writes
four image files, not five. -/
theorem c9_counterexample :
    (generate_report (load_data
        [("InvoiceDate", ColData.dates [some 0, some 31]),
         ("CustomerID", ColData.str [some "B", some "C"]),
         ("Product", ColData.str [some "P", some "Q"]),
         ("TotalAmount", ColData.num [10, 20])])).1
      = ["results/monthly_sales_trend.png", "results/customer_spending_dist.png",
         "results/top_products_revenue.png", "results/correlation_matrix.png"]
    ∧ ¬ ((generate_report (load_data
        [("InvoiceDate", ColData.dates [some 0, some 31]),
         ("CustomerID", ColData.str [some "B", some "C"]),
         ("Product", ColData.str [some "P", some "Q"]),
         ("TotalAmount", ColData.num [10, 20])])).1.length = 5) := by
  have h := generate_report_four_charts
    [("InvoiceDate", ColData.dates [some 0, some 31]),
     ("CustomerID", ColData.str [some "B", some "C"]),
     ("Product", ColData.str [some "P", some "Q"]),
     ("TotalAmount", ColData.num [10, 20])]
    [some 0, some 31] [some "B", some "C"] [some "P", some "Q"] [10, 20]
    rfl rfl rfl rfl (by decide) (by decide) (by decide) (by decide)
    ⟨"P", 10, by simp [List.zip_cons_cons]⟩
  rw [h]
  exact ⟨rfl, by decide⟩

/-- Counterexample to C1 as stated: a table whose InvoiceDate column
has one parsed timestamp and one missing (NaT) entry.  The derived
month of the NaT row is missing, the groupby silently drops that row,
and the per-month aggregates sum to 50 while the monetary column sums
to 150: the aggregates do not sum to the total of the full column. -/
theorem c1_counterexample :
    sales_trends_analysis (load_data
        [("InvoiceDate", ColData.dates [some 0, none]),
         ("TotalAmount", ColData.num [50, 100])])
      = StepResult.ok ⟨[(1, 50)], (1, 50), (1, 50)⟩
    ∧ ¬ (([((1 : ℚ), (50 : ℚ))].map (·.2)).sum
        = ([(50 : ℚ), 100] : List ℚ).sum) := by
  have hm1 : ((civilFromDays 0).2.1 : ℚ) = 1 := by
    rw [show (civilFromDays 0).2.1 = 1 from by decide]
    norm_num
  have hTA : DF.getNum (load_data
      [("InvoiceDate", ColData.dates [some 0, none]),
       ("TotalAmount", ColData.num [50, 100])]) "TotalAmount"
      = some [50, 100] := rfl
  have hM : DF.getNumNa (load_data
      [("InvoiceDate", ColData.dates [some 0, none]),
       ("TotalAmount", ColData.num [50, 100])]) "Month"
      = some [some ((civilFromDays 0).2.1 : ℚ), none] := rfl
  rw [hm1] at hM
  have hdrop : dropNullKeys ([some (1 : ℚ), none].zip [(50 : ℚ), 100])
      = [((1 : ℚ), (50 : ℚ))] := rfl
  have hser : monthly_sales [((1 : ℚ), (50 : ℚ))] = [(1, 50)] := by
    norm_num [monthly_sales, sortAsc, keyedSum, List.dedup, List.insertionSort,
      List.orderedInsert]
  have hok : sales_trends_analysis (load_data
      [("InvoiceDate", ColData.dates [some 0, none]),
       ("TotalAmount", ColData.num [50, 100])])
      = StepResult.ok ⟨[(1, 50)], (1, 50), (1, 50)⟩ := by
    unfold sales_trends_analysis
    simp only [hTA, hM]
    rw [hdrop, hser]
    rfl
  refine ⟨hok, ?_⟩
  simp only [List.map_cons, List.map_nil, List.sum_cons, List.sum_nil]
  norm_num

end RetailEDA
